import Mathlib

/-!
# gue: a database-backed job queue

A shallow embedding of `job.go`, `client.go` and `adapter/libpq/db.go`.

The Go code talks to the database through the `adapter` interfaces
(`ConnPool`, `Tx`, `Row`).  Here an adapter implementation is a record of
state transformers over an arbitrary state type `σ` (`Backend σ`), and every
call the Go code makes on it is appended to a trace kept next to that state
(`World σ`).  Theorems stated for every `Backend` hold for every adapter
implementation, healthy or failing.

Conventions: `error` values are `Option GoError` (`none` is `nil`),
interface-valued fields that may be `nil` are `Option`s, a call through a
`nil` interface or func value is `Outcome.panicked`.  The handle-local mutex
of `Job` serialises the methods; in this sequential embedding it has no
effect and is left out.
-/

namespace Gue

/-! ## Errors -/

/-- Go `error` values.  The first constructors are the sentinels created with
`errors.New`; `other` stands for any driver error; each `errorf…` constructor
is one `fmt.Errorf` call site of the sources, keeping apart the operand
formatted with `%v` (text only) and the operand wrapped with `%w`. -/
inductive GoError where
  /-- Sentinel `gue.ErrMissingType`. -/
  | ErrMissingType
  /-- Sentinel `adapter.ErrNoRows`. -/
  | ErrNoRows
  /-- Sentinel `adapter.ErrTxClosed`. -/
  | ErrTxClosed
  /-- Sentinel `sql.ErrNoRows` of `database/sql`. -/
  | sqlErrNoRows
  /-- Sentinel `sql.ErrTxDone` of `database/sql`. -/
  | sqlErrTxDone
  /-- Sentinel `ulid.ErrBigTime`. -/
  | ulidErrBigTime
  /-- Sentinel `ulid.ErrMonotonicOverflow`. -/
  | ulidErrMonotonicOverflow
  /-- Sentinel `ulid.ErrDataSize`. -/
  | ulidErrDataSize
  /-- Sentinel `ulid.ErrOverflow`. -/
  | ulidErrOverflow
  /-- Any other error value, identified by its text. -/
  | other (msg : String)
  /-- The value of
  `fmt.Errorf("failed to mark job as done (original error: %v): %w", err, doneErr)`
  for a non-nil `err`. -/
  | errorfDone (err : GoError) (doneErr : GoError)
  /-- The value of the same call for `err == nil` (formatted as `<nil>`). -/
  | errorfDoneNil (doneErr : GoError)
  /-- The value of
  `fmt.Errorf("could not lock a job (rollback result: %v): %w", rbErr, err)`
  for a non-nil `rbErr`. -/
  | errorfLock (rbErr : GoError) (err : GoError)
  /-- The value of the same call for `rbErr == nil` (formatted as `<nil>`). -/
  | errorfLockNil (err : GoError)
  /-- The value of `fmt.Errorf("could not generate new Job ULID ID: %w", err)`. -/
  | errorfNewID (err : GoError)
  /-- The value of `fmt.Errorf("could not unmarshal Job ULID ID: %w", err)`. -/
  | errorfUnmarshalID (err : GoError)
  deriving DecidableEq, Repr

namespace GoError

/-- Go `errors.Unwrap`: the operand of `%w`, if the error was built with one. -/
def Unwrap : GoError → Option GoError
  | errorfDone _ doneErr => some doneErr
  | errorfDoneNil doneErr => some doneErr
  | errorfLock _ err => some err
  | errorfLockNil err => some err
  | errorfNewID err => some err
  | errorfUnmarshalID err => some err
  | _ => none

/-- The chain of an error: the error itself, followed by the chain of what it
wraps. -/
def chain : GoError → List GoError
  | errorfDone o doneErr => errorfDone o doneErr :: chain doneErr
  | errorfDoneNil doneErr => errorfDoneNil doneErr :: chain doneErr
  | errorfLock o err => errorfLock o err :: chain err
  | errorfLockNil err => errorfLockNil err :: chain err
  | errorfNewID err => errorfNewID err :: chain err
  | errorfUnmarshalID err => errorfUnmarshalID err :: chain err
  | e => [e]

/-- Go `errors.Is(err, target)` for comparable errors without an `Is` method. -/
def Is (err target : GoError) : Bool := decide (target ∈ chain err)

/-- The call `fmt.Errorf("failed to mark job as done (original error: %v): %w", err, doneErr)`
of `Job.Error`. -/
def mkErrorfDone (err : Option GoError) (doneErr : GoError) : GoError :=
  match err with
  | some e => errorfDone e doneErr
  | none => errorfDoneNil doneErr

/-- The call `fmt.Errorf("could not lock a job (rollback result: %v): %w", rbErr, err)`
of `Client.execLockJob`. -/
def mkErrorfLock (rbErr : Option GoError) (err : GoError) : GoError :=
  match rbErr with
  | some r => errorfLock r err
  | none => errorfLockNil err

end GoError

/-- The result of a Go call: it returns a value or panics. -/
inductive Outcome (α : Type) where
  | returned (a : α)
  | panicked
  deriving DecidableEq, Repr

/-! ## Time -/

/-- Go `time.Time` in UTC: nanoseconds since the zero time, January 1 of year 1. -/
structure Time where
  ns : Int
  deriving DecidableEq, Repr

/-- Go `time.Duration`: nanoseconds. -/
abbrev Duration := Int

namespace Time

/-- The zero value of `time.Time`. -/
def zero : Time := ⟨0⟩

instance : Inhabited Time := ⟨zero⟩

/-- Go `Time.IsZero`. -/
def IsZero (t : Time) : Bool := t.ns == 0

/-- Go `Time.Add`. -/
def Add (t : Time) (d : Duration) : Time := ⟨t.ns + d⟩

/-- Seconds between the zero time and the Unix epoch (`unixToInternal` of
package `time`). -/
def unixToInternal : Nat := 62135596800

/-- The `time.Time` of a system clock reading, given in nanoseconds since the
Unix epoch.  The system clock does not read before 1970. -/
def ofUnixNano (n : Nat) : Time := ⟨(unixToInternal * 1000000000 + n : Nat)⟩

/-- Go `ulid.Timestamp` of a clock reading: Unix milliseconds. -/
def unixMilli (n : Nat) : Nat := n / 1000000

end Time

/-! ## Machine integers -/

/-- Go `int32` arithmetic wraps around: the representative of `x` in
`[-2^31, 2^31)`. -/
def wrapInt32 (x : Int) : Int := (x + 2147483648) % 4294967296 - 2147483648

/-! ## Job identifiers -/

/-- A `ulid.ULID`: 128 bits, a 48-bit millisecond timestamp followed by 80 bits
of entropy. -/
structure ULID where
  ms : Nat
  entropy : Nat
  deriving DecidableEq, Repr

instance : Inhabited ULID := ⟨⟨0, 0⟩⟩

namespace ULID

/-- Largest timestamp a ULID holds (`ulid.MaxTime`): 48 bits. -/
def MaxTime : Nat := 281474976710655

/-- The 128-bit number of a ULID. -/
def toNat (u : ULID) : Nat := u.ms * 1208925819614629174706176 + u.entropy

/-- The ULID of a 128-bit number. -/
def ofNat (n : Nat) : ULID :=
  ⟨n / 1208925819614629174706176 % 281474976710656, n % 1208925819614629174706176⟩

/-- Crockford base 32 alphabet of the canonical text. -/
def alphabet : List Char := "0123456789ABCDEFGHJKMNPQRSTVWXYZ".toList

/-- The character of a base 32 digit. -/
def encodeDigit (d : Nat) : Char := alphabet.getD d '0'

/-- The base 32 digit of a character; `255` for a character outside the
alphabet (the `dec` table of the library, which also accepts lower case). -/
def decodeChar (c : Char) : Nat :=
  let i := alphabet.indexOf c.toUpper
  if i < 32 then i else 255

/-- The `k` low base 32 digits of `n`, most significant first. -/
def digits : Nat → Nat → List Nat
  | 0, _ => []
  | k + 1, n => digits k (n / 32) ++ [n % 32]

/-- The number of a list of base 32 digits, most significant first. -/
def ofDigits (ds : List Nat) : Nat := ds.foldl (fun acc d => acc * 32 + d) 0

/-- Go `ULID.UnmarshalText` (the non-strict parser of the library): a text of
another length than 26 is `ErrDataSize`, a first character above `7` is
`ErrOverflow`, otherwise the digits are decoded.  On the canonical text of a
ULID it gives that ULID back; what it decodes from characters outside the
alphabet is not relied upon. -/
def UnmarshalText (v : String) : Except GoError ULID :=
  if v.data.length ≠ 26 then .error .ulidErrDataSize
  else if v.data.headD '0' > '7' then .error .ulidErrOverflow
  else .ok (ofNat (ofDigits (v.data.map decodeChar)))

/-- Go `ULID.String`: the canonical text, 26 characters of base 32. -/
def String (u : ULID) : String := ⟨(digits 26 u.toNat).map encodeDigit⟩

end ULID

/-! ## The adapter: statements, queries, and the calls made on it -/

/-- Handle of a transaction opened on the pool (an `adapter.Tx` value). -/
abbrev TxId := Nat

/-- The connection pool of a client (an `adapter.ConnPool` value). -/
inductive ConnPool where
  | pool
  deriving DecidableEq, Repr

/-- The statements the sources execute, one constructor per SQL text, with the
positional arguments in the order of the call. -/
inductive Stmt where
  /-- The statement `DELETE FROM gue_jobs WHERE job_id = $1` -/
  | deleteJob (jobID : ULID)
  /-- The statement `UPDATE gue_jobs SET error_count = $1, run_at = $2, last_error = $3,
  updated_at = $4 WHERE job_id = $5` -/
  | updateJob (errorCount : Int) (runAt : Time) (lastError : String)
      (updatedAt : Time) (jobID : ULID)
  /-- The statement `INSERT INTO gue_jobs (job_id, queue, priority, run_at, job_type, args,
  created_at, updated_at) VALUES (?, ?, ?, ?, ?, ?, ?, ?)` -/
  | insertJob (jobID : String) (queue : String) (priority : Int) (runAt : Time)
      (jobType : String) (args : List UInt8) (createdAt : Time) (updatedAt : Time)
  deriving DecidableEq, Repr

/-- The row-locking selects of the client, one constructor per SQL text.  All
select `job_id, queue, priority, run_at, job_type, args, error_count,
last_error` from `gue_jobs` and end in `FOR UPDATE SKIP LOCKED`. -/
inductive Query where
  /-- The select `WHERE queue = $1 AND run_at <= $2 ORDER BY priority ASC LIMIT 1` -/
  | lockJob (queue : String) (now : Time)
  /-- The select `WHERE job_id = $1` -/
  | lockJobByID (id : String)
  /-- The select `WHERE queue = $1 AND run_at <= $2 ORDER BY run_at, priority ASC LIMIT 1` -/
  | lockNextScheduledJob (queue : String) (now : Time)
  deriving DecidableEq, Repr

/-- What a successful `Scan` of such a select stores into its destinations. -/
structure ScanRow where
  jID : String
  Queue : String
  Priority : Int
  RunAt : Time
  Type_ : String
  Args : Option (List UInt8)
  ErrorCount : Int
  LastError : Option String
  deriving DecidableEq, Repr

/-- What the code can run a statement on (`adapter.Queryable`): the pool or a
transaction. -/
inductive Queryable where
  | pool
  | tx (id : TxId)
  deriving DecidableEq, Repr

/-- The observable steps of a run: the calls made on the adapter, the entries
into `Job.Delete` and `Job.Done`, log lines and counter increments. -/
inductive Event where
  /-- Call of `pool.Begin`. -/
  | poolBegin
  /-- Call of `pool.Exec`. -/
  | poolExec (s : Stmt)
  /-- Call of `tx.Exec`. -/
  | txExec (tx : TxId) (s : Stmt)
  /-- Call of `tx.QueryRow(...).Scan(...)`. -/
  | txQueryRow (tx : TxId) (q : Query)
  /-- Call of `tx.Commit`. -/
  | txCommit (tx : TxId)
  /-- Call of `tx.Rollback`. -/
  | txRollback (tx : TxId)
  /-- Entry into `Job.Delete`. -/
  | jobDelete
  /-- Entry into `Job.Done`. -/
  | jobDone
  /-- Call of `logger.Info`. -/
  | logInfo (msg : String)
  /-- Call of `logger.Debug`. -/
  | logDebug (msg : String)
  /-- Call of `mEnqueue.Add(ctx, 1, job-type, success)`. -/
  | metricEnqueue (jobType : String) (success : Bool)
  /-- Call of `mLockJob.Add(ctx, 1, job-type, success)`. -/
  | metricLockJob (jobType : String) (success : Bool)
  deriving DecidableEq, Repr

namespace Event

/-- The event is the execution of an `UPDATE`. -/
def isUpdate : Event → Bool
  | poolExec (.updateJob ..) => true
  | txExec _ (.updateJob ..) => true
  | _ => false

/-- The event is the execution of a `DELETE`. -/
def isDelete : Event → Bool
  | poolExec (.deleteJob ..) => true
  | txExec _ (.deleteJob ..) => true
  | _ => false

/-- The event is the execution of an `INSERT`. -/
def isInsert : Event → Bool
  | poolExec (.insertJob ..) => true
  | txExec _ (.insertJob ..) => true
  | _ => false

/-- The event is the execution of a statement, on the pool or a transaction. -/
def isExec : Event → Bool
  | poolExec _ => true
  | txExec _ _ => true
  | _ => false

/-- The event is a call on the adapter (pool or transaction). -/
def isAdapterCall : Event → Bool
  | poolBegin => true
  | poolExec _ => true
  | txExec _ _ => true
  | txQueryRow _ _ => true
  | txCommit _ => true
  | txRollback _ => true
  | _ => false

end Event

/-- An implementation of the adapter interfaces, together with the two other
things the client reads from its environment (the clock and the entropy of the
id generator), as transformers of a state `σ`. -/
structure Backend (σ : Type) where
  /-- Method `ConnPool.Exec`. -/
  poolExec : Stmt → σ → Option GoError × σ
  /-- Method `ConnPool.Begin`: a transaction handle, or an error. -/
  poolBegin : σ → Except GoError TxId × σ
  /-- Method `Tx.Exec`. -/
  txExec : TxId → Stmt → σ → Option GoError × σ
  /-- Method `Tx.QueryRow` followed by `Row.Scan`. -/
  txQueryRow : TxId → Query → σ → Except GoError ScanRow × σ
  /-- Method `Tx.Commit`. -/
  txCommit : TxId → σ → Option GoError × σ
  /-- Method `Tx.Rollback`. -/
  txRollback : TxId → σ → Option GoError × σ
  /-- The system clock read by `time.Now`: nanoseconds since the Unix epoch. -/
  timeNow : σ → Nat × σ
  /-- Method `MonotonicRead(ms, p)` on the client's entropy source: the error, and the
  content of the 10-byte buffer `p` after the call, as a number. -/
  entropyRead : Nat → σ → (Option GoError × Nat) × σ

/-- The state of the environment and the trace of the steps taken so far. -/
structure World (σ : Type) where
  st : σ
  trace : List Event

namespace World

variable {σ α : Type}

/-- A step that is recorded and changes nothing in the environment. -/
def emit (w : World σ) (e : Event) : World σ :=
  { w with trace := w.trace ++ [e] }

/-- A recorded call on the environment. -/
def call (w : World σ) (e : Event) (op : σ → α × σ) : α × World σ :=
  ((op w.st).1, { st := (op w.st).2, trace := w.trace ++ [e] })

/-- A call on the environment that is not recorded. -/
def read (w : World σ) (op : σ → α × σ) : α × World σ :=
  ((op w.st).1, { w with st := (op w.st).2 })

end World

/-- Go `ulid.New(ms, entropy)`: the timestamp is set first (`ErrBigTime` when it
does not fit, leaving the zero id), then the entropy part is read.  The id is
returned next to the error. -/
def ulidNew {σ : Type} (B : Backend σ) (ms : Nat) (w : World σ) :
    (ULID × Option GoError) × World σ :=
  if ms > ULID.MaxTime then ((⟨0, 0⟩, some .ulidErrBigTime), w)
  else
    let r := w.read (B.entropyRead ms)
    ((⟨ms, r.1.2 % 1208925819614629174706176⟩, r.1.1), r.2)

/-! ## job.go -/

/-- Go `Backoff`: the delay before the next attempt, from the number of failed
attempts; a negative delay discards the job. -/
abbrev Backoff := Int → Duration

/-- Go `Job`.  `ID` is the ULID that `client.go` generates, inserts as text and
reads back (`job.go` still declares the field as `int64`); `Priority` is an
`int16` and `ErrorCount` an `int32`; `LastError` is a `pgtype.Text`, `none`
when null.  `Type_` is the field `Type`.  The unexported fields: `deleted`,
`pool`, `tx`, `backoff` (the logger is part of the environment). -/
structure Job where
  ID : ULID := default
  Queue : String := ""
  Priority : Int := 0
  RunAt : Time := Time.zero
  Type_ : String := ""
  Args : Option (List UInt8) := none
  ErrorCount : Int := 0
  LastError : Option String := none
  deleted : Bool := false
  pool : Option ConnPool := none
  tx : Option TxId := none
  backoff : Option Backoff := none

namespace Job

variable {σ : Type}

/-- Go `Job.Tx`. -/
def Tx (j : Job) : Option TxId := j.tx

/-- Go `Job.Delete`. -/
def Delete (B : Backend σ) (j : Job) (w : World σ) :
    Outcome (Option GoError) × Job × World σ :=
  let w := w.emit .jobDelete
  if j.deleted then
    (.returned none, j, w)
  else
    match j.tx with
    | none => (.panicked, j, w)
    | some tx =>
      let r := w.call (.txExec tx (.deleteJob j.ID)) (B.txExec tx (.deleteJob j.ID))
      match r.1 with
      | some err => (.returned (some err), j, r.2)
      | none => (.returned none, { j with deleted := true }, r.2)

/-- Go `Job.Done`. -/
def Done (B : Backend σ) (j : Job) (w : World σ) : Option GoError × Job × World σ :=
  let w := w.emit .jobDone
  if j.tx.isNone || j.pool.isNone then
    (none, j, w)
  else
    match j.tx with
    | none => (none, j, w)
    | some tx =>
      let r := w.call (.txCommit tx) (B.txCommit tx)
      match r.1 with
      | some err => (some err, j, r.2)
      | none => (none, { j with pool := none, tx := none }, r.2)

/-- The value of `errorCount` in `Job.Error`: `j.ErrorCount + 1` in `int32`. -/
def nextErrorCount (j : Job) : Int := wrapInt32 (j.ErrorCount + 1)

/-- The body of Go `Job.Error`, before the deferred function runs. -/
def errorBody (B : Backend σ) (j : Job) (msg : String) (w : World σ) :
    Outcome (Option GoError) × Job × World σ :=
  let errorCount := j.nextErrorCount
  match j.backoff with
  | none => (.panicked, j, w)
  | some b =>
    let backoff := b errorCount
    if backoff < 0 then
      let w := w.emit (.logInfo "Got negative backoff for a job, discarding it")
      Delete B j w
    else
      let t := w.read B.timeNow
      let now := Time.ofUnixNano t.1
      let newRunAt := now.Add backoff
      match j.tx with
      | none => (.panicked, j, t.2)
      | some tx =>
        let r := t.2.call (.txExec tx (.updateJob errorCount newRunAt msg now j.ID))
          (B.txExec tx (.updateJob errorCount newRunAt msg now j.ID))
        (.returned r.1, j, r.2)

/-- Go `Job.Error`: the body, then the deferred function, which calls `Done`
and, when `Done` fails, replaces the returned error.  A panic of the body goes
on after the deferred function has run. -/
def Error (B : Backend σ) (j : Job) (msg : String) (w : World σ) :
    Outcome (Option GoError) × Job × World σ :=
  let body := errorBody B j msg w
  let d := Done B body.2.1 body.2.2
  match body.1 with
  | .panicked => (.panicked, d.2.1, d.2.2)
  | .returned err =>
    match d.1 with
    | some doneErr => (.returned (some (GoError.mkErrorfDone err doneErr)), d.2.1, d.2.2)
    | none => (.returned err, d.2.1, d.2.2)

end Job

/-! ## client.go -/

/-- Go `Client`: the pool and the backoff given to the jobs it locks (logger,
meter and entropy source are part of the environment). -/
structure Client where
  pool : ConnPool := .pool
  backoff : Option Backoff := none

namespace Client

variable {σ : Type}

/-- Go `Client.execEnqueue`. -/
def execEnqueue (B : Backend σ) (_c : Client) (j : Job) (q : Queryable) (w : World σ) :
    Option GoError × Job × World σ :=
  if j.Type_ = "" then
    (some .ErrMissingType, j, w)
  else
    let t := w.read B.timeNow
    let now := Time.ofUnixNano t.1
    let runAt := j.RunAt
    let j := if runAt.IsZero then { j with RunAt := now } else j
    let j := if j.Args.isNone then { j with Args := some [] } else j
    let u := ulidNew B (Time.unixMilli t.1) t.2
    let j := { j with ID := u.1.1 }
    match u.1.2 with
    | some err => (some (.errorfNewID err), j, u.2)
    | none =>
      let stmt := Stmt.insertJob j.ID.String j.Queue j.Priority j.RunAt j.Type_
        (j.Args.getD []) now now
      let r := match q with
        | .pool => u.2.call (.poolExec stmt) (B.poolExec stmt)
        | .tx tx => u.2.call (.txExec tx stmt) (B.txExec tx stmt)
      let w := r.2.emit (.logDebug "Tried to enqueue a job")
      let w := w.emit (.metricEnqueue j.Type_ r.1.isNone)
      (r.1, j, w)

/-- Go `Client.Enqueue`. -/
def Enqueue (B : Backend σ) (c : Client) (j : Job) (w : World σ) :
    Option GoError × Job × World σ :=
  execEnqueue B c j .pool w

/-- Go `Client.EnqueueTx`. -/
def EnqueueTx (B : Backend σ) (c : Client) (j : Job) (tx : TxId) (w : World σ) :
    Option GoError × Job × World σ :=
  execEnqueue B c j (.tx tx) w

/-- Go `Client.execLockJob`.  The job literal sets `tx`, `backoff` and the
logger; every other field, `pool` included, has its zero value. -/
def execLockJob (B : Backend σ) (c : Client) (handleErrNoRows : Bool) (q : Query)
    (w : World σ) : Option Job × Option GoError × World σ :=
  let b := w.call .poolBegin B.poolBegin
  match b.1 with
  | .error err => (none, some err, b.2.emit (.metricLockJob "" false))
  | .ok tx =>
    let j : Job := { tx := some tx, backoff := c.backoff }
    let s := b.2.call (.txQueryRow tx q) (B.txQueryRow tx q)
    match s.1 with
    | .ok row =>
      let j := { j with Queue := row.Queue, Priority := row.Priority, RunAt := row.RunAt,
                        Type_ := row.Type_, Args := row.Args, ErrorCount := row.ErrorCount,
                        LastError := row.LastError }
      match ULID.UnmarshalText row.jID with
      | .error err => (some j, some (.errorfUnmarshalID err), s.2)
      | .ok id => (some { j with ID := id }, none, s.2.emit (.metricLockJob j.Type_ true))
    | .error err =>
      let r := s.2.call (.txRollback tx) (B.txRollback tx)
      if handleErrNoRows && err == .ErrNoRows then
        (none, r.1, r.2)
      else
        (none, some (GoError.mkErrorfLock r.1 err), r.2)

/-- Go `Client.LockJob`. -/
def LockJob (B : Backend σ) (c : Client) (queue : String) (w : World σ) :
    Option Job × Option GoError × World σ :=
  let t := w.read B.timeNow
  execLockJob B c true (.lockJob queue (Time.ofUnixNano t.1)) t.2

/-- Go `Client.LockJobByID`. -/
def LockJobByID (B : Backend σ) (c : Client) (id : ULID) (w : World σ) :
    Option Job × Option GoError × World σ :=
  execLockJob B c false (.lockJobByID id.String) w

/-- Go `Client.LockNextScheduledJob`. -/
def LockNextScheduledJob (B : Backend σ) (c : Client) (queue : String) (w : World σ) :
    Option Job × Option GoError × World σ :=
  let t := w.read B.timeNow
  execLockJob B c true (.lockNextScheduledJob queue (Time.ofUnixNano t.1)) t.2

end Client

/-! ## The steps a method is expected to record -/

/-- The events of `Job.Done` on a handle: its entry, and the commit when the
handle has both its transaction and its pool. -/
def Job.doneEvents (j : Job) : List Event :=
  match j.tx, j.pool with
  | some tx, some _ => [.jobDone, .txCommit tx]
  | _, _ => [.jobDone]

/-- The events of `Job.Delete` on a handle: its entry, and the `DELETE` on the
transaction unless the handle is marked deleted or has no transaction. -/
def Job.deleteEvents (j : Job) : List Event :=
  if j.deleted then [.jobDelete]
  else
    match j.tx with
    | some tx => [.jobDelete, .txExec tx (.deleteJob j.ID)]
    | none => [.jobDelete]

/-- The event of running a statement on a `Queryable`. -/
def Queryable.execEvent (q : Queryable) (s : Stmt) : Event :=
  match q with
  | .pool => .poolExec s
  | .tx t => .txExec t s

/-! ## A scripted adapter

An adapter whose calls answer what a script says, whatever was called before:
the test double used to run the code on concrete inputs, failing calls
included. -/

/-- The answers of a scripted adapter. -/
structure Script where
  execErr : Option GoError := none
  beginRes : Except GoError TxId := .ok 1
  scanRes : Except GoError ScanRow := .error .ErrNoRows
  commitErr : Option GoError := none
  rollbackErr : Option GoError := none
  clock : Nat := 1700000000000000000
  entropyErr : Option GoError := none
  entropy : Nat := 42

/-- The adapter that answers by the script; its state counts the calls. -/
def Script.backend (s : Script) : Backend Nat where
  poolExec := fun _ n => (s.execErr, n + 1)
  poolBegin := fun n => (s.beginRes, n + 1)
  txExec := fun _ _ n => (s.execErr, n + 1)
  txQueryRow := fun _ _ n => (s.scanRes, n + 1)
  txCommit := fun _ n => (s.commitErr, n + 1)
  txRollback := fun _ n => (s.rollbackErr, n + 1)
  timeNow := fun n => (s.clock, n)
  entropyRead := fun _ n => ((s.entropyErr, s.entropy), n)

/-- The world at the start of a run of a scripted adapter. -/
def World.start : World Nat := { st := 0, trace := [] }

/-! ## The table `gue_jobs`

The database behind the adapter, for the claims that speak of persisted rows:
one table, transactions that see the committed rows and their own statements,
row locks taken by the selects (`FOR UPDATE SKIP LOCKED`) and by `UPDATE` and
`DELETE`, released at commit or rollback. -/

/-- Modelled from the spec: a row of `gue_jobs` with the columns of the
persisted schema (`error_count INT NOT NULL DEFAULT 0`, `last_error TEXT
NULL`), and the transaction that holds the lock of the row, if any. -/
structure Row where
  job_id : String
  queue : String
  priority : Int
  run_at : Time
  job_type : String
  args : List UInt8
  error_count : Int
  last_error : Option String
  created_at : Time
  updated_at : Time
  lockedBy : Option TxId
  deriving DecidableEq, Repr

/-- Modelled from the spec: a transaction of the database, open until it is
committed or rolled back, with the statements it executed so far. -/
structure TxState where
  isOpen : Bool
  writes : List Stmt
  deriving DecidableEq, Repr

/-- Modelled from the spec: the state of the database and of what else the
client reads: the committed rows, the transactions begun so far (a transaction
handle is its position in the list), the clock, and the monotonic entropy
source of the id generator (last timestamp, last entropy, and the random
numbers still to come). -/
structure DB where
  rows : List Row := []
  txs : List TxState := []
  clock : Nat := 1700000000000000000
  lastMs : Nat := 0
  lastEntropy : Nat := 0
  random : List Nat := []
  deriving Repr

namespace DB

/-- Modelled from the spec: the effect of a statement on a list of rows.  An
inserted row gets the defaults of the schema: `error_count` 0, `last_error`
null.  `UPDATE` and `DELETE` address the row whose `job_id` is the canonical
text of the id. -/
def applyStmt (rows : List Row) : Stmt → List Row
  | .insertJob id q p ra t a ca ua =>
    rows ++ [{ job_id := id, queue := q, priority := p, run_at := ra, job_type := t,
               args := a, error_count := 0, last_error := none, created_at := ca,
               updated_at := ua, lockedBy := none }]
  | .deleteJob id => rows.filter (fun r => r.job_id != id.String)
  | .updateJob ec ra le ua id =>
    rows.map (fun r =>
      if r.job_id = id.String then
        { r with error_count := ec, run_at := ra, last_error := some le, updated_at := ua }
      else r)

/-- Modelled from the spec: the transaction is open. -/
def isOpenTx (d : DB) (t : TxId) : Bool :=
  match d.txs[t]? with
  | some s => s.isOpen
  | none => false

/-- Modelled from the spec: the rows a transaction sees: the committed rows
with its own statements applied. -/
def view (d : DB) (t : TxId) : List Row :=
  match d.txs[t]? with
  | some s => s.writes.foldl applyStmt d.rows
  | none => d.rows

/-- Modelled from the spec: a row with this `job_id` exists (the primary key
is taken). -/
def hasKey (rows : List Row) (id : String) : Bool := rows.any (fun r => r.job_id == id)

/-- Modelled from the spec: the row with this `job_id` is locked by a
transaction other than `t`. -/
def lockedByOther (rows : List Row) (id : String) (t : Option TxId) : Bool :=
  rows.any (fun r => r.job_id == id && r.lockedBy.isSome && r.lockedBy != t)

/-- Modelled from the spec: transaction `t` takes the lock of the row with this
`job_id`. -/
def lockRow (rows : List Row) (id : String) (t : TxId) : List Row :=
  rows.map (fun r => if r.job_id = id then { r with lockedBy := some t } else r)

/-- Modelled from the spec: the locks of transaction `t` are released. -/
def unlockAll (rows : List Row) (t : TxId) : List Row :=
  rows.map (fun r => if r.lockedBy = some t then { r with lockedBy := none } else r)

/-- Modelled from the spec: transaction `t` records a statement it executed. -/
def addWrite (d : DB) (t : TxId) (s : Stmt) : DB :=
  match d.txs[t]? with
  | some st => { d with txs := d.txs.set t { st with writes := st.writes ++ [s] } }
  | none => d

/-- Modelled from the spec: the transaction is ended, its statements are
dropped from the record. -/
def closeTx (d : DB) (t : TxId) : DB :=
  { d with txs := d.txs.set t { isOpen := false, writes := [] } }

/-- Modelled from the spec: a statement run on the pool takes effect at once.
An `INSERT` of a `job_id` that exists violates the primary key; an `UPDATE` or
`DELETE` of a row locked by a transaction cannot proceed. -/
def poolExec (s : Stmt) (d : DB) : Option GoError × DB :=
  match s with
  | .insertJob id _ _ _ _ _ _ _ =>
    if hasKey d.rows id then (some (.other "duplicate key value"), d)
    else (none, { d with rows := applyStmt d.rows s })
  | .deleteJob id =>
    if lockedByOther d.rows id.String none then (some (.other "row is locked"), d)
    else (none, { d with rows := applyStmt d.rows s })
  | .updateJob _ _ _ _ id =>
    if lockedByOther d.rows id.String none then (some (.other "row is locked"), d)
    else (none, { d with rows := applyStmt d.rows s })

/-- Modelled from the spec: `ConnPool.Begin` opens a new transaction. -/
def poolBegin (d : DB) : Except GoError TxId × DB :=
  (.ok d.txs.length, { d with txs := d.txs ++ [{ isOpen := true, writes := [] }] })

/-- Modelled from the spec: a statement run in a transaction is recorded in it
and takes effect for the others at commit; `UPDATE` and `DELETE` take the lock
of the row they address.  On an ended transaction the driver reports
`sql.ErrTxDone`. -/
def txExec (t : TxId) (s : Stmt) (d : DB) : Option GoError × DB :=
  if !d.isOpenTx t then (some .sqlErrTxDone, d)
  else
    match s with
    | .insertJob id _ _ _ _ _ _ _ =>
      if hasKey (d.view t) id then (some (.other "duplicate key value"), d)
      else (none, d.addWrite t s)
    | .deleteJob id =>
      if lockedByOther d.rows id.String (some t) then (some (.other "row is locked"), d)
      else (none, ({ d with rows := lockRow d.rows id.String t }).addWrite t s)
    | .updateJob _ _ _ _ id =>
      if lockedByOther d.rows id.String (some t) then (some (.other "row is locked"), d)
      else (none, ({ d with rows := lockRow d.rows id.String t }).addWrite t s)

/-- Modelled from the spec: the `WHERE` clause of a select. -/
def Matches (q : Query) (r : Row) : Bool :=
  match q with
  | .lockJob queue now => r.queue == queue && decide (r.run_at.ns ≤ now.ns)
  | .lockJobByID id => r.job_id == id
  | .lockNextScheduledJob queue now => r.queue == queue && decide (r.run_at.ns ≤ now.ns)

/-- Modelled from the spec: the `ORDER BY` clause of a select, `a` comes
strictly before `b`. -/
def Before (q : Query) (a b : Row) : Bool :=
  match q with
  | .lockJob _ _ => decide (a.priority < b.priority)
  | .lockJobByID _ => false
  | .lockNextScheduledJob _ _ =>
    decide (a.run_at.ns < b.run_at.ns) ||
      (a.run_at.ns == b.run_at.ns && decide (a.priority < b.priority))

/-- Modelled from the spec: the first row of a list in the order of the select
(`LIMIT 1`), the earlier row on a tie. -/
def first (q : Query) : List Row → Option Row
  | [] => none
  | r :: rest =>
    match first q rest with
    | some b => if Before q b r then some b else some r
    | none => some r

/-- Modelled from the spec: what `Scan` stores for a row. -/
def toScanRow (r : Row) : ScanRow :=
  { jID := r.job_id, Queue := r.queue, Priority := r.priority, RunAt := r.run_at,
    Type_ := r.job_type, Args := some r.args, ErrorCount := r.error_count,
    LastError := r.last_error }

/-- Modelled from the spec: a select `... FOR UPDATE SKIP LOCKED` in a
transaction: among the rows the transaction sees that satisfy the `WHERE`
clause and are not locked by another transaction, the first in the order of the
select is locked and scanned; when there is none, `Scan` reports `ErrNoRows`. -/
def txQueryRow (t : TxId) (q : Query) (d : DB) : Except GoError ScanRow × DB :=
  if !d.isOpenTx t then (.error .sqlErrTxDone, d)
  else
    match first q ((d.view t).filter
        (fun r => (r.lockedBy.isNone || r.lockedBy == some t) && Matches q r)) with
    | none => (.error .ErrNoRows, d)
    | some r => (.ok (toScanRow r), { d with rows := lockRow d.rows r.job_id t })

/-- Modelled from the spec: commit makes the statements of the transaction
take effect and releases its locks.  On an ended transaction the adapter
returns what the driver reports, `sql.ErrTxDone`. -/
def txCommit (t : TxId) (d : DB) : Option GoError × DB :=
  if !d.isOpenTx t then (some .sqlErrTxDone, d)
  else (none, ({ d with rows := unlockAll (d.view t) t }).closeTx t)

/-- Modelled from the spec: rollback drops the statements of the transaction
and releases its locks.  On an ended transaction the adapter returns
`ErrTxClosed`. -/
def txRollback (t : TxId) (d : DB) : Option GoError × DB :=
  if !d.isOpenTx t then (some .ErrTxClosed, d)
  else (none, ({ d with rows := unlockAll d.rows t }).closeTx t)

/-- Modelled from the spec: the clock is read, not changed. -/
def timeNow (d : DB) : Nat × DB := (d.clock, d)

/-- Modelled from the spec: the monotonic entropy source of the client
(`ulid.Monotonic(rand.Reader, 0)`): within the millisecond of the previous id
the previous entropy is incremented by a random number between 1 and 2^32 - 1
(`ErrMonotonicOverflow` when it leaves 80 bits), otherwise fresh random entropy
is read.  Every read takes one number of the supply, which stands for the
bytes the library draws; the source fails when no number is left. -/
def entropyRead (ms : Nat) (d : DB) : (Option GoError × Nat) × DB :=
  match d.random with
  | [] => ((some (.other "unexpected EOF"), 0), d)
  | r :: rest =>
    if d.lastMs = ms then
      if d.lastEntropy + (1 + r % 4294967295) ≥ 1208925819614629174706176 then
        ((some .ulidErrMonotonicOverflow, d.lastEntropy), { d with random := rest })
      else
        ((none, d.lastEntropy + (1 + r % 4294967295)),
          { d with lastEntropy := d.lastEntropy + (1 + r % 4294967295), random := rest })
    else
      ((none, r % 1208925819614629174706176),
        { d with lastMs := ms, lastEntropy := r % 1208925819614629174706176, random := rest })

/-- Modelled from the spec: the database, seen through the adapter. -/
def backend : Backend DB where
  poolExec := poolExec
  poolBegin := poolBegin
  txExec := txExec
  txQueryRow := txQueryRow
  txCommit := txCommit
  txRollback := txRollback
  timeNow := timeNow
  entropyRead := entropyRead

/-- Modelled from the spec: an empty table, no transaction, and a supply of
random numbers. -/
def init : DB := { random := [42, 7, 99, 12345, 1] }

end DB

/-! ## Successive calls of `Job.Done` -/

/-- The call of `Job.Done` on `j` in world `w` commits: it reaches `Commit`
(the handle has its transaction and its pool) and `Commit` returns nil. -/
def Job.doneCommits {σ : Type} (B : Backend σ) (j : Job) (w : World σ) : Bool :=
  j.tx.isSome && j.pool.isSome && (Job.Done B j w).1.isNone

/-- Successive calls of `Job.Done` on one handle, each in the world the list
gives for it: the number of calls that commit, and the handle after the last
call. -/
def Job.doneCalls {σ : Type} (B : Backend σ) : List (World σ) → Job → Nat × Job
  | [], j => (0, j)
  | w :: ws, j =>
    ((if Job.doneCommits B j w then 1 else 0) + (doneCalls B ws (Job.Done B j w).2.1).1,
      (doneCalls B ws (Job.Done B j w).2.1).2)

/-! ## adapter/libpq/db.go

The adapter over `database/sql`.  What the driver returns is the argument; the
result is what the adapter returns to the client. -/

namespace Libpq

/-- Go `aRow.Scan`, from the error of the driver's `Row.Scan`. -/
def aRowScan (driverErr : Option GoError) : Option GoError :=
  if driverErr = some .sqlErrNoRows then some .ErrNoRows else driverErr

/-- Go `aTx.Rollback`, from the error of the driver's `Tx.Rollback`. -/
def aTxRollback (driverErr : Option GoError) : Option GoError :=
  if driverErr = some .sqlErrTxDone then some .ErrTxClosed else driverErr

/-- Go `aTx.Commit`, from the error of the driver's `Tx.Commit`. -/
def aTxCommit (driverErr : Option GoError) : Option GoError := driverErr

end Libpq

/-! ## Runs on the table -/

/-- Modelled from the spec: the entropy source of a new client (`NewClient`
builds it with `ulid.Monotonic(rand.Reader, 0)`) has produced no id yet. -/
def DB.newClient (d : DB) : DB := { d with lastMs := 0, lastEntropy := 0 }

/-- What can happen between two calls of a client: the wall clock comes to
another reading, later (time passes) or earlier (the clock is set back), the
client enqueues a job (on the pool or in a transaction), or a call is made on
the adapter, by the client or by anyone else. -/
inductive Op where
  | setClock (t : Nat)
  | enqueue (c : Client) (j : Job) (q : Queryable)
  | poolExec (s : Stmt)
  | poolBegin
  | txExec (t : TxId) (s : Stmt)
  | txQueryRow (t : TxId) (q : Query)
  | txCommit (t : TxId)
  | txRollback (t : TxId)

/-- Modelled from the spec: one step on the table.  The wall clock that
`time.Now` reads is not monotonic: a step can leave it at any reading. -/
def DB.step (w : World DB) : Op → World DB
  | .setClock t => { w with st := { w.st with clock := t } }
  | .enqueue c j q => (Client.execEnqueue DB.backend c j q w).2.2
  | .poolExec s => (w.call (.poolExec s) (DB.backend.poolExec s)).2
  | .poolBegin => (w.call .poolBegin DB.backend.poolBegin).2
  | .txExec t s => (w.call (.txExec t s) (DB.backend.txExec t s)).2
  | .txQueryRow t q => (w.call (.txQueryRow t q) (DB.backend.txQueryRow t q)).2
  | .txCommit t => (w.call (.txCommit t) (DB.backend.txCommit t)).2
  | .txRollback t => (w.call (.txRollback t) (DB.backend.txRollback t)).2

/-- A run: the steps of a list, in order. -/
def DB.run (ops : List Op) (w : World DB) : World DB := ops.foldl DB.step w

/-- The wall clock does not step back in the run from `w`: no step leaves it
at an earlier reading than it found. -/
def DB.clockForward : List Op → World DB → Bool
  | [], _ => true
  | op :: ops, w =>
    decide (w.st.clock ≤ (DB.step w op).st.clock) && DB.clockForward ops (DB.step w op)

/-- The order of ULIDs: by timestamp, then by entropy (the order of their 16
bytes, and of their canonical texts). -/
def ULID.lt (a b : ULID) : Prop := a.ms < b.ms ∨ (a.ms = b.ms ∧ a.entropy < b.entropy)

instance (a b : ULID) : Decidable (ULID.lt a b) := by
  unfold ULID.lt
  exact inferInstance

/-- The last id the entropy source of the table has produced. -/
def DB.lastID (d : DB) : ULID := ⟨d.lastMs, d.lastEntropy⟩

/-- The entropy source of the table is in order: the last id it produced is
not of a later millisecond than the clock reads, and its entropy has 80 bits. -/
def DB.genOK (d : DB) : Prop :=
  d.lastMs ≤ Time.unixMilli d.clock ∧ d.lastEntropy < 1208925819614629174706176

/-! ## What a table holds -/

/-- What the table holds for a reader outside every transaction: its rows,
without the locks. -/
def DB.persisted (rows : List Row) : List Row :=
  rows.map (fun r => { r with lockedBy := none })

/-! ## Concrete inputs -/

namespace Example

/-- A backoff that waits one second per failed attempt. -/
def linearBackoff : Backoff := fun attempts => attempts * 1000000000

/-- A backoff that discards at the first failure. -/
def discardBackoff : Backoff := fun _ => -1

/-- A backoff with no delay. -/
def zeroBackoff : Backoff := fun _ => 0

/-- A handle as a lock leaves it, completed with the pool: transaction 1 bound,
not deleted, no failure so far. -/
def boundJob (b : Backoff) : Job :=
  { ID := ⟨1700000000000, 42⟩, Type_ := "MyJob", Args := some [], tx := some 1,
    pool := some .pool, backoff := some b }

/-- A job to enqueue, with a queue, a priority and arguments. -/
def fullJob : Job :=
  { Type_ := "MyJob", Queue := "special-work-queue", Priority := 99, Args := some [123, 125] }

/-- The world of the empty table. -/
def emptyTable : World DB := { st := DB.init, trace := [] }

/-- An adapter on which every statement fails and every commit fails, with
two different errors. -/
def failingBackend : Backend Nat :=
  Script.backend { execErr := some (.other "update failed"),
                   commitErr := some (.other "commit failed") }

/-- An adapter on which every statement fails and every commit succeeds. -/
def updateFailingBackend : Backend Nat :=
  Script.backend { execErr := some (.other "update failed") }

/-- An adapter on which every call succeeds and every select finds the row of
`MyJob`. -/
def healthyBackend : Backend Nat :=
  Script.backend { scanRes := .ok { jID := "01HF7YAT00000000000000001A", Queue := "",
                                    Priority := 0, RunAt := ⟨0⟩, Type_ := "MyJob",
                                    Args := some [], ErrorCount := 0, LastError := none } }

/-- An adapter on which every call succeeds and every select finds no row. -/
def emptyBackend : Backend Nat := Script.backend {}

/-- An adapter on which every select finds no row and every rollback fails. -/
def rollbackFailingBackend : Backend Nat :=
  Script.backend { rollbackErr := some (.other "connection lost") }

/-- An adapter on which every call succeeds and every select finds a row whose
`job_id` is not the text of a ULID. -/
def badIDBackend : Backend Nat :=
  Script.backend { scanRes := .ok { jID := "not-a-ulid", Queue := "", Priority := 0,
                                    RunAt := ⟨0⟩, Type_ := "MyJob", Args := some [],
                                    ErrorCount := 0, LastError := none } }

/-- A bound handle that has failed as often as an `int32` can count. -/
def maxedJob : Job :=
  { ID := ⟨1700000000000, 42⟩, Type_ := "MyJob", Args := some [], ErrorCount := 2147483647,
    tx := some 1, pool := some .pool, backoff := some zeroBackoff }

/-- A bound handle that has failed as often as an `int32` can count, with a
backoff of one second per attempt. -/
def maxedLinearJob : Job :=
  { ID := ⟨1700000000000, 42⟩, Type_ := "MyJob", Args := some [], ErrorCount := 2147483647,
    tx := some 1, pool := some .pool, backoff := some linearBackoff }

/-- The world of the empty table after `Begin`: transaction 0 is open. -/
def emptyTableTx : World DB := { st := (DB.poolBegin DB.init).2, trace := [] }

/-- A client whose jobs wait one second per failed attempt. -/
def linearClient : Client := { backoff := some linearBackoff }

/-- A job that was due a hundred million seconds before the clock of the
empty table reads. -/
def pastJob : Job := { Type_ := "MyJob", RunAt := ⟨63735596800000000000⟩ }

/-- The world of the table after `pastJob` was enqueued on the empty table. -/
def queuedPast : World DB := (Client.Enqueue DB.backend linearClient pastJob emptyTable).2.2

/-- The row of `pastJob` in that table. -/
def pastRow : Row :=
  { job_id := "01HF7YAT00000000000000001A", queue := "", priority := 0,
    run_at := ⟨63735596800000000000⟩, job_type := "MyJob", args := [], error_count := 0,
    last_error := none, created_at := ⟨63835596800000000000⟩,
    updated_at := ⟨63835596800000000000⟩, lockedBy := none }

/-- The world of the table after three jobs with the priorities 10, -5 and 0
were enqueued on the empty table. -/
def threeJobs : World DB :=
  (Client.Enqueue DB.backend {} { Type_ := "MyJob", Priority := 0 }
    (Client.Enqueue DB.backend {} { Type_ := "MyJob", Priority := -5 }
      (Client.Enqueue DB.backend {} { Type_ := "MyJob", Priority := 10 } emptyTable).2.2).2.2).2.2

end Example

/-! ## Basic facts -/

section Basics

variable {σ α : Type}

@[simp]
theorem World.emit_trace (w : World σ) (e : Event) :
    (w.emit e).trace = w.trace ++ [e] := rfl

@[simp]
theorem World.emit_st (w : World σ) (e : Event) : (w.emit e).st = w.st := rfl

@[simp]
theorem World.call_fst (w : World σ) (e : Event) (op : σ → α × σ) :
    (w.call e op).1 = (op w.st).1 := rfl

@[simp]
theorem World.call_trace (w : World σ) (e : Event) (op : σ → α × σ) :
    (w.call e op).2.trace = w.trace ++ [e] := rfl

@[simp]
theorem World.call_st (w : World σ) (e : Event) (op : σ → α × σ) :
    (w.call e op).2.st = (op w.st).2 := rfl

@[simp]
theorem World.read_fst (w : World σ) (op : σ → α × σ) :
    (w.read op).1 = (op w.st).1 := rfl

@[simp]
theorem World.read_trace (w : World σ) (op : σ → α × σ) :
    (w.read op).2.trace = w.trace := rfl

@[simp]
theorem World.read_st (w : World σ) (op : σ → α × σ) :
    (w.read op).2.st = (op w.st).2 := rfl

/-- Within the `int32` range below its maximum, the next error count is the
successor. -/
theorem Job.nextErrorCount_eq (j : Job) (hlo : -2147483648 ≤ j.ErrorCount)
    (hhi : j.ErrorCount < 2147483647) : j.nextErrorCount = j.ErrorCount + 1 := by
  unfold Job.nextErrorCount wrapInt32
  omega

/-- What `Job.Done` records. -/
theorem Job.Done_trace_eq (B : Backend σ) (j : Job) (w : World σ) :
    (Job.Done B j w).2.2.trace = w.trace ++ j.doneEvents := by
  unfold Job.Done Job.doneEvents
  rcases htx : j.tx with _ | tx
  · simp
  · rcases hp : j.pool with _ | p
    · simp
    · simp only [Option.isNone_some, Bool.or_self, Bool.false_eq_true, if_false]
      split <;> simp

/-- The `deleted` mark is left as it is by `Job.Done`. -/
theorem Job.Done_deleted (B : Backend σ) (j : Job) (w : World σ) :
    (Job.Done B j w).2.1.deleted = j.deleted := by
  unfold Job.Done
  rcases htx : j.tx with _ | tx
  · simp
  · rcases hp : j.pool with _ | p
    · simp
    · rcases hc : (B.txCommit tx w.st).1 with _ | err <;> simp [hc]

/-- What `Job.Delete` records. -/
theorem Job.Delete_trace_eq (B : Backend σ) (j : Job) (w : World σ) :
    (Job.Delete B j w).2.2.trace = w.trace ++ j.deleteEvents := by
  unfold Job.Delete Job.deleteEvents
  rcases hd : j.deleted
  · rcases htx : j.tx with _ | tx
    · simp
    · rcases hc : (B.txExec tx (.deleteJob j.ID) w.st).1 with _ | err <;> simp [hc]
  · simp

/-- No field but `deleted` is changed by `Job.Delete`. -/
theorem Job.Delete_fields (B : Backend σ) (j : Job) (w : World σ) :
    (Job.Delete B j w).2.1.tx = j.tx ∧ (Job.Delete B j w).2.1.pool = j.pool := by
  unfold Job.Delete
  rcases hd : j.deleted
  · rcases htx : j.tx with _ | tx
    · simp [htx]
    · rcases hc : (B.txExec tx (.deleteJob j.ID) w.st).1 with _ | err <;> simp [hc, htx]
  · simp

/-- A `Job.Delete` that returns nil leaves the handle marked deleted. -/
theorem Job.Delete_ok_deleted (B : Backend σ) (j : Job) (w : World σ)
    (h : (Job.Delete B j w).1 = .returned none) : (Job.Delete B j w).2.1.deleted = true := by
  unfold Job.Delete at h ⊢
  rcases hd : j.deleted
  · rw [hd] at h
    rcases htx : j.tx with _ | tx
    · simp [htx] at h
    · rw [htx] at h
      rcases hc : (B.txExec tx (.deleteJob j.ID) w.st).1 with _ | err
      · simp [hc]
      · simp [hc] at h
  · simp [hd]

end Basics

/-! ## Job.Error -/

section JobError

variable {σ : Type}

/-- The update path of `Job.Error`, before the deferred function. -/
theorem Job.errorBody_update (B : Backend σ) (j : Job) (msg : String) (w : World σ)
    (tx : TxId) (b : Backoff) (htx : j.tx = some tx) (hb : j.backoff = some b)
    (hpos : 0 ≤ b j.nextErrorCount) :
    Job.errorBody B j msg w =
      (.returned ((w.read B.timeNow).2.call
          (.txExec tx (.updateJob j.nextErrorCount
            ((Time.ofUnixNano (B.timeNow w.st).1).Add (b j.nextErrorCount)) msg
            (Time.ofUnixNano (B.timeNow w.st).1) j.ID))
          (B.txExec tx (.updateJob j.nextErrorCount
            ((Time.ofUnixNano (B.timeNow w.st).1).Add (b j.nextErrorCount)) msg
            (Time.ofUnixNano (B.timeNow w.st).1) j.ID))).1, j,
        ((w.read B.timeNow).2.call
          (.txExec tx (.updateJob j.nextErrorCount
            ((Time.ofUnixNano (B.timeNow w.st).1).Add (b j.nextErrorCount)) msg
            (Time.ofUnixNano (B.timeNow w.st).1) j.ID))
          (B.txExec tx (.updateJob j.nextErrorCount
            ((Time.ofUnixNano (B.timeNow w.st).1).Add (b j.nextErrorCount)) msg
            (Time.ofUnixNano (B.timeNow w.st).1) j.ID))).2) := by
  unfold Job.errorBody
  simp only [hb, htx, not_lt.mpr hpos, if_false, World.read_fst]

/-- The discard path of `Job.Error`, before the deferred function. -/
theorem Job.errorBody_discard (B : Backend σ) (j : Job) (msg : String) (w : World σ)
    (b : Backoff) (hb : j.backoff = some b) (hneg : b j.nextErrorCount < 0) :
    Job.errorBody B j msg w =
      Job.Delete B j (w.emit (.logInfo "Got negative backoff for a job, discarding it")) := by
  unfold Job.errorBody
  simp only [hb, hneg, if_true]

/-- The job and the world `Job.Error` ends with are those of `Job.Done` run
after the body. -/
theorem Job.Error_snd (B : Backend σ) (j : Job) (msg : String) (w : World σ) :
    (Job.Error B j msg w).2 =
      (Job.Done B (Job.errorBody B j msg w).2.1 (Job.errorBody B j msg w).2.2).2 := by
  unfold Job.Error
  rcases h1 : (Job.errorBody B j msg w).1 with err | _
  · rcases h2 : (Job.Done B (Job.errorBody B j msg w).2.1 (Job.errorBody B j msg w).2.2).1
      with _ | d <;> simp [h1, h2]
  · simp [h1]

/-- The job and the world the body of the update path ends with. -/
theorem Job.Error_update_trace (B : Backend σ) (j : Job) (msg : String) (w : World σ)
    (tx : TxId) (b : Backoff) (htx : j.tx = some tx) (hb : j.backoff = some b)
    (hpos : 0 ≤ b j.nextErrorCount) :
    (Job.Error B j msg w).2.2.trace =
      w.trace ++ Event.txExec tx (.updateJob j.nextErrorCount
            ((Time.ofUnixNano (B.timeNow w.st).1).Add (b j.nextErrorCount)) msg
            (Time.ofUnixNano (B.timeNow w.st).1) j.ID) :: j.doneEvents := by
  rw [Job.Error_snd, Job.errorBody_update B j msg w tx b htx hb hpos, Job.Done_trace_eq]
  simp

/-- The events of `Job.Done` depend on the transaction and the pool only. -/
theorem Job.doneEvents_congr (j k : Job) (htx : k.tx = j.tx) (hp : k.pool = j.pool) :
    k.doneEvents = j.doneEvents := by
  unfold Job.doneEvents
  rw [htx, hp]

/-- The events of `Job.Done` are its entry, followed by no statement, no entry
into a method, at most the commit. -/
theorem Job.doneEvents_shape (j : Job) :
    ∃ post, j.doneEvents = Event.jobDone :: post ∧ Event.jobDone ∉ post ∧
      ∀ e ∈ post, e.isExec = false ∧ e ≠ Event.jobDelete := by
  unfold Job.doneEvents
  split
  · exact ⟨_, rfl, by simp, by simp [Event.isExec]⟩
  · exact ⟨_, rfl, by simp, by simp⟩

/-- The entry into `Job.Done` is not among the events of `Job.Delete`, which
execute nothing but the `DELETE` of the job. -/
theorem Job.deleteEvents_shape (j : Job) :
    Event.jobDone ∉ j.deleteEvents ∧ j.deleteEvents.count Event.jobDelete = 1 ∧
    j.deleteEvents.filter Event.isUpdate = [] ∧
    ∀ e ∈ j.deleteEvents, e.isExec = true → ∃ tx, e = Event.txExec tx (.deleteJob j.ID) := by
  unfold Job.deleteEvents
  split
  · simp [Event.isUpdate, Event.isExec]
  · split <;> simp [Event.isUpdate, Event.isExec]

/-- What the body of `Job.Error` records, and that it leaves the transaction
and the pool of the handle as they are. -/
theorem Job.errorBody_trace (B : Backend σ) (j : Job) (msg : String) (w : World σ) :
    (Job.errorBody B j msg w).2.1.tx = j.tx ∧ (Job.errorBody B j msg w).2.1.pool = j.pool ∧
    ∃ pre, (Job.errorBody B j msg w).2.2.trace = w.trace ++ pre ∧ Event.jobDone ∉ pre ∧
      ∀ tx b, j.tx = some tx → j.backoff = some b →
        (0 ≤ b j.nextErrorCount →
          pre = [Event.txExec tx (.updateJob j.nextErrorCount
            ((Time.ofUnixNano (B.timeNow w.st).1).Add (b j.nextErrorCount)) msg
            (Time.ofUnixNano (B.timeNow w.st).1) j.ID)]) ∧
        (b j.nextErrorCount < 0 →
          pre = Event.logInfo "Got negative backoff for a job, discarding it" ::
            j.deleteEvents) := by
  rcases hb : j.backoff with _ | b
  · refine ⟨by simp [Job.errorBody, hb], by simp [Job.errorBody, hb], [], ?_, by simp, ?_⟩
    · simp [Job.errorBody, hb]
    · intro tx b _ h
      cases h
  · by_cases hneg : b j.nextErrorCount < 0
    · rw [Job.errorBody_discard B j msg w b hb hneg]
      refine ⟨(Job.Delete_fields B j _).1, (Job.Delete_fields B j _).2,
        Event.logInfo "Got negative backoff for a job, discarding it" :: j.deleteEvents,
        ?_, ?_, ?_⟩
      · rw [Job.Delete_trace_eq]
        simp
      · simp [(Job.deleteEvents_shape j).1]
      · intro tx b2 _ h2
        cases h2
        exact ⟨fun h => absurd hneg (not_lt.mpr h), fun _ => rfl⟩
    · rcases htx : j.tx with _ | tx
      · refine ⟨by simp [Job.errorBody, hb, hneg, htx], by simp [Job.errorBody, hb, hneg, htx],
          [], ?_, by simp, ?_⟩
        · simp [Job.errorBody, hb, hneg, htx]
        · intro tx b2 h
          cases h
      · rw [Job.errorBody_update B j msg w tx b htx hb (not_lt.mp hneg)]
        refine ⟨htx, rfl, [Event.txExec tx (.updateJob j.nextErrorCount
            ((Time.ofUnixNano (B.timeNow w.st).1).Add (b j.nextErrorCount)) msg
            (Time.ofUnixNano (B.timeNow w.st).1) j.ID)], ?_, ?_, ?_⟩
        · simp only [World.call_trace, World.read_trace]
        · simp
        · intro tx2 b2 h1 h2
          cases h1
          cases h2
          exact ⟨fun _ => rfl, fun h => absurd h hneg⟩

/-- The update path of `Job.Error`: on a handle with a bound transaction `tx`
and a backoff `b` whose delay for the next error count (`ErrorCount + 1` as the
`int32` addition of the code computes it) is not negative, `Job.Error` executes
exactly one statement, on `tx`: the `UPDATE` addressed to the handle's job id
that sets `error_count` to the next error count, `run_at` to now plus the delay,
`last_error` to the message and `updated_at` to now.  It executes no `DELETE`
and does not enter `Job.Delete`; this holds whether the update succeeds or
fails. -/
theorem Job.Error_update_path (B : Backend σ) (j : Job) (msg : String) (w : World σ)
    (tx : TxId) (b : Backoff) (htx : j.tx = some tx) (hb : j.backoff = some b)
    (hpos : 0 ≤ b (wrapInt32 (j.ErrorCount + 1))) :
    let now := Time.ofUnixNano (B.timeNow w.st).1
    let errorCount := wrapInt32 (j.ErrorCount + 1)
    let update := Event.txExec tx (.updateJob errorCount (now.Add (b errorCount)) msg now j.ID)
    ∃ new, (Job.Error B j msg w).2.2.trace = w.trace ++ new ∧
      new = update :: j.doneEvents ∧
      new.filter Event.isExec = [update] ∧
      new.filter Event.isUpdate = [update] ∧
      new.filter Event.isDelete = [] ∧
      Event.jobDelete ∉ new := by
  intro now errorCount update
  refine ⟨update :: j.doneEvents, ?_, rfl, ?_⟩
  · rw [Job.Error_snd, Job.errorBody_update B j msg w tx b htx hb hpos, Job.Done_trace_eq]
    simp [update, now, errorCount, Job.nextErrorCount]
  · unfold Job.doneEvents
    split <;> simp [update, Event.isExec, Event.isUpdate, Event.isDelete]

/-- C2, as the claim states it, fails at the greatest error count of an
`int32`, 2147483647.  With a backoff of one second per attempt the delay for
`ErrorCount + 1` is not negative, but the code computes `ErrorCount + 1` as
-2147483648, for which the backoff is negative: `Job.Error` executes the
`DELETE` of the job and no `UPDATE`.  With a backoff without delay it executes
the `UPDATE`, which sets `error_count` to -2147483648, not to
`ErrorCount + 1`. -/
theorem Job.Error_at_max_error_count :
    Example.maxedLinearJob.tx = some 1 ∧
    Example.maxedLinearJob.backoff = some Example.linearBackoff ∧
    0 ≤ Example.linearBackoff (Example.maxedLinearJob.ErrorCount + 1) ∧
    (Job.Error Example.healthyBackend Example.maxedLinearJob "boom" World.start).2.2.trace.filter
      Event.isUpdate = [] ∧
    (Job.Error Example.healthyBackend Example.maxedLinearJob "boom" World.start).2.2.trace.filter
      Event.isDelete = [.txExec 1 (.deleteJob ⟨1700000000000, 42⟩)] ∧
    Example.maxedJob.tx = some 1 ∧
    Example.maxedJob.backoff = some Example.zeroBackoff ∧
    0 ≤ Example.zeroBackoff (Example.maxedJob.ErrorCount + 1) ∧
    (Job.Error Example.healthyBackend Example.maxedJob "boom" World.start).2.2.trace.filter
      Event.isUpdate = [.txExec 1 (.updateJob (-2147483648) ⟨63835596800000000000⟩ "boom"
        ⟨63835596800000000000⟩ ⟨1700000000000, 42⟩)] ∧
    Example.maxedJob.ErrorCount + 1 = 2147483648 := by
  refine ⟨rfl, rfl, by decide, ?_, ?_, rfl, rfl, by decide, ?_, by decide⟩ <;> decide

/-- C2, amended: on a handle with a bound transaction `tx`, an error count of
the `int32` range below its maximum 2147483647, and a backoff `b` with
`b(ErrorCount + 1) >= 0`, `Job.Error` executes exactly one statement, on `tx`:
the `UPDATE` addressed to the handle's job id that sets `error_count` to
`ErrorCount + 1`, `run_at` to now plus `b(ErrorCount + 1)`, `last_error` to the
message and `updated_at` to now.  It executes no `DELETE` and does not enter
`Job.Delete`; this holds whether the update succeeds or fails. -/
theorem Job.Error_executes_one_update (B : Backend σ) (j : Job) (msg : String) (w : World σ)
    (tx : TxId) (b : Backoff) (htx : j.tx = some tx) (hb : j.backoff = some b)
    (hlo : -2147483648 ≤ j.ErrorCount) (hhi : j.ErrorCount < 2147483647)
    (hpos : 0 ≤ b (j.ErrorCount + 1)) :
    let now := Time.ofUnixNano (B.timeNow w.st).1
    let update := Event.txExec tx
      (.updateJob (j.ErrorCount + 1) (now.Add (b (j.ErrorCount + 1))) msg now j.ID)
    ∃ new, (Job.Error B j msg w).2.2.trace = w.trace ++ new ∧
      new = update :: j.doneEvents ∧
      new.filter Event.isExec = [update] ∧
      new.filter Event.isUpdate = [update] ∧
      new.filter Event.isDelete = [] ∧
      Event.jobDelete ∉ new := by
  have hw : wrapInt32 (j.ErrorCount + 1) = j.ErrorCount + 1 := Job.nextErrorCount_eq j hlo hhi
  have h := Job.Error_update_path B j msg w tx b htx hb (by rw [hw]; exact hpos)
  rw [hw] at h
  exact h

/-- C2, amended, at a concrete input: a bound handle with no failure so far and
a backoff of one second per attempt, on an adapter where every call
succeeds. -/
theorem Job.Error_executes_one_update_witness :
    (Example.boundJob Example.linearBackoff).tx = some 1 ∧
    (Example.boundJob Example.linearBackoff).backoff = some Example.linearBackoff ∧
    -2147483648 ≤ (Example.boundJob Example.linearBackoff).ErrorCount ∧
    (Example.boundJob Example.linearBackoff).ErrorCount < 2147483647 ∧
    0 ≤ Example.linearBackoff ((Example.boundJob Example.linearBackoff).ErrorCount + 1) ∧
    ∃ new, (Job.Error Example.healthyBackend (Example.boundJob Example.linearBackoff) "boom"
        World.start).2.2.trace = World.start.trace ++ new ∧
      new.filter Event.isUpdate =
        [Event.txExec 1 (.updateJob 1 ⟨63835596801000000000⟩ "boom" ⟨63835596800000000000⟩
          ⟨1700000000000, 42⟩)] ∧
      new.filter Event.isDelete = [] :=
  ⟨rfl, rfl, by decide, by decide, by decide,
    (Job.Error_executes_one_update Example.healthyBackend
      (Example.boundJob Example.linearBackoff) "boom" World.start 1 Example.linearBackoff
      rfl rfl (by decide) (by decide) (by decide)).imp
      (fun _ h => ⟨h.1, h.2.2.2.1, h.2.2.2.2.1⟩)⟩

/-- C3: on every handle with a backoff `b` whose delay for the next error count
is negative, `Job.Error` takes the discard path: it logs the discard, runs
`Job.Delete` and then `Job.Done` (the job and the world it ends with are
theirs), enters `Job.Delete` once, executes no `UPDATE` and no statement other
than the `DELETE` of the job, and the handle is marked deleted whenever
`Job.Delete` returned nil.  A delay of exactly 0 is not a discard: on a bound
handle the `UPDATE` is executed, and neither a `DELETE` nor `Job.Delete`. -/
theorem Job.Error_discard_path (B : Backend σ) (j : Job) (msg : String) (w : World σ)
    (b : Backoff) (hb : j.backoff = some b) :
    (b (wrapInt32 (j.ErrorCount + 1)) < 0 →
      (Job.Error B j msg w).2 =
        (Job.Done B
          (Job.Delete B j
            (w.emit (.logInfo "Got negative backoff for a job, discarding it"))).2.1
          (Job.Delete B j
            (w.emit (.logInfo "Got negative backoff for a job, discarding it"))).2.2).2 ∧
      ((Job.Delete B j
          (w.emit (.logInfo "Got negative backoff for a job, discarding it"))).1
          = .returned none → (Job.Error B j msg w).2.1.deleted = true) ∧
      ∃ new, (Job.Error B j msg w).2.2.trace = w.trace ++ new ∧
        new = Event.logInfo "Got negative backoff for a job, discarding it" ::
          (j.deleteEvents ++ j.doneEvents) ∧
        new.count Event.jobDelete = 1 ∧
        new.filter Event.isUpdate = [] ∧
        ∀ e ∈ new, e.isExec = true → ∃ tx, e = Event.txExec tx (.deleteJob j.ID)) ∧
    (b (wrapInt32 (j.ErrorCount + 1)) = 0 → ∀ tx, j.tx = some tx →
      ∃ new, (Job.Error B j msg w).2.2.trace = w.trace ++ new ∧
        (new.filter Event.isUpdate).length = 1 ∧
        new.filter Event.isDelete = [] ∧
        Event.jobDelete ∉ new) := by
  constructor
  · intro hneg
    have hbody := Job.errorBody_discard B j msg w b hb hneg
    have hsnd : (Job.Error B j msg w).2 = _ := Job.Error_snd B j msg w
    rw [hbody] at hsnd
    refine ⟨hsnd, ?_, _, ?_, rfl, ?_⟩
    · intro hok
      rw [hsnd, Job.Done_deleted]
      exact Job.Delete_ok_deleted B j _ hok
    · rw [hsnd, Job.Done_trace_eq, Job.Delete_trace_eq,
        Job.doneEvents_congr j _ (Job.Delete_fields B j _).1 (Job.Delete_fields B j _).2]
      simp
    · obtain ⟨post, hpost, -, hpost2⟩ := Job.doneEvents_shape j
      obtain ⟨-, hcount, hupd, hexec⟩ := Job.deleteEvents_shape j
      have hpost3 : ∀ e ∈ post, e.isExec = false ∧ e.isUpdate = false ∧ e ≠ Event.jobDelete := by
        intro e he
        refine ⟨(hpost2 e he).1, ?_, (hpost2 e he).2⟩
        have := (hpost2 e he).1
        cases e <;> simp_all [Event.isExec, Event.isUpdate]
      refine ⟨?_, ?_, ?_⟩
      · rw [hpost]
        simp only [List.count_cons, List.count_append, hcount]
        have : post.count Event.jobDelete = 0 :=
          List.count_eq_zero.mpr (fun hmem => (hpost3 _ hmem).2.2 rfl)
        simp [this]
      · rw [hpost]
        simp only [List.filter_cons, List.filter_append, hupd, Event.isUpdate]
        simp only [Bool.false_eq_true, if_false, List.nil_append, List.filter_eq_nil_iff]
        intro e he
        simp [(hpost3 e he).2.1]
      · intro e he hex
        rw [hpost] at he
        simp only [List.mem_cons, List.mem_append] at he
        rcases he with rfl | he | rfl | he
        · simp [Event.isExec] at hex
        · exact hexec e he hex
        · simp [Event.isExec] at hex
        · simp [(hpost3 e he).1] at hex
  · intro hzero tx htx
    have hpos : 0 ≤ b j.nextErrorCount := le_of_eq hzero.symm
    refine ⟨_, Job.Error_update_trace B j msg w tx b htx hb hpos, ?_⟩
    unfold Job.doneEvents
    split <;> simp [Event.isUpdate, Event.isDelete]

/-- C3 at concrete inputs: a bound handle whose backoff answers -1 is deleted
and not updated; the same handle with a backoff that answers 0 is updated and
not deleted. -/
theorem Job.Error_discard_path_witness :
    (Example.boundJob Example.discardBackoff).backoff = some Example.discardBackoff ∧
    Example.discardBackoff
      (wrapInt32 ((Example.boundJob Example.discardBackoff).ErrorCount + 1)) < 0 ∧
    (Job.Error Example.healthyBackend (Example.boundJob Example.discardBackoff) "boom"
      World.start).2.1.deleted = true ∧
    (Job.Error Example.healthyBackend (Example.boundJob Example.discardBackoff) "boom"
      World.start).2.2.trace =
      [.logInfo "Got negative backoff for a job, discarding it", .jobDelete,
       .txExec 1 (.deleteJob ⟨1700000000000, 42⟩), .jobDone, .txCommit 1] ∧
    (Example.boundJob Example.zeroBackoff).backoff = some Example.zeroBackoff ∧
    Example.zeroBackoff (wrapInt32 ((Example.boundJob Example.zeroBackoff).ErrorCount + 1)) = 0 ∧
    ∃ new, (Job.Error Example.healthyBackend (Example.boundJob Example.zeroBackoff) "boom"
        World.start).2.2.trace = World.start.trace ++ new ∧
      (new.filter Event.isUpdate).length = 1 ∧
      new.filter Event.isDelete = [] ∧
      Event.jobDelete ∉ new :=
  ⟨rfl, by decide,
    ((Job.Error_discard_path Example.healthyBackend (Example.boundJob Example.discardBackoff)
      "boom" World.start Example.discardBackoff rfl).1 (by decide)).2.1 rfl,
    by
      obtain ⟨new, h1, h2, -⟩ :=
        ((Job.Error_discard_path Example.healthyBackend
          (Example.boundJob Example.discardBackoff) "boom" World.start
          Example.discardBackoff rfl).1 (by decide)).2.2
      rw [h1, h2]
      rfl,
    rfl, rfl,
    (Job.Error_discard_path Example.healthyBackend (Example.boundJob Example.zeroBackoff)
      "boom" World.start Example.zeroBackoff rfl).2 rfl 1 rfl⟩

/-- C4: on every path of `Job.Error`, `Job.Done` is entered exactly once, and
nothing is executed and no method entered after it but at most the commit.
What comes before it is the attempt: on a bound handle whose backoff does not
discard, the `UPDATE` on the transaction (whether it succeeds or fails); when
the backoff discards, the log line and the events of `Job.Delete` (whether the
`DELETE` succeeds or fails). -/
theorem Job.Error_calls_Done_once (B : Backend σ) (j : Job) (msg : String) (w : World σ) :
    ∃ pre post, (Job.Error B j msg w).2.2.trace = w.trace ++ pre ++ Event.jobDone :: post ∧
      Event.jobDone ∉ pre ∧ Event.jobDone ∉ post ∧
      (pre ++ Event.jobDone :: post).count Event.jobDone = 1 ∧
      (∀ e ∈ post, e.isExec = false ∧ e ≠ Event.jobDelete) ∧
      ∀ tx b, j.tx = some tx → j.backoff = some b →
        (0 ≤ b (wrapInt32 (j.ErrorCount + 1)) →
          pre = [Event.txExec tx (.updateJob (wrapInt32 (j.ErrorCount + 1))
            ((Time.ofUnixNano (B.timeNow w.st).1).Add (b (wrapInt32 (j.ErrorCount + 1)))) msg
            (Time.ofUnixNano (B.timeNow w.st).1) j.ID)]) ∧
        (b (wrapInt32 (j.ErrorCount + 1)) < 0 →
          pre = Event.logInfo "Got negative backoff for a job, discarding it" ::
            (if j.deleted then [Event.jobDelete]
             else [Event.jobDelete, Event.txExec tx (.deleteJob j.ID)])) := by
  obtain ⟨htx, hpool, pre, hpre, hnot, hpaths⟩ := Job.errorBody_trace B j msg w
  obtain ⟨post, hpost, hnotpost, hpost2⟩ := Job.doneEvents_shape j
  refine ⟨pre, post, ?_, hnot, hnotpost, ?_, hpost2, ?_⟩
  · rw [Job.Error_snd, Job.Done_trace_eq, hpre, Job.doneEvents_congr j _ htx hpool, hpost]
  · simp [List.count_append, List.count_cons, List.count_eq_zero.mpr hnot,
      List.count_eq_zero.mpr hnotpost]
  · intro tx b h1 h2
    refine ⟨(hpaths tx b h1 h2).1, fun hneg => ?_⟩
    rw [(hpaths tx b h1 h2).2 hneg]
    unfold Job.deleteEvents
    simp [h1]

/-- C4 at a concrete input: the trace of `Job.Error` on a bound handle is the
update, the entry into `Job.Done`, the commit. -/
theorem Job.Error_calls_Done_once_witness :
    ∃ pre post, (Job.Error Example.healthyBackend (Example.boundJob Example.linearBackoff)
        "boom" World.start).2.2.trace = World.start.trace ++ pre ++ Event.jobDone :: post ∧
      pre = [Event.txExec 1 (.updateJob 1 ⟨63835596801000000000⟩ "boom" ⟨63835596800000000000⟩
          ⟨1700000000000, 42⟩)] ∧
      Event.jobDone ∉ post := by
  obtain ⟨pre, post, h1, -, h3, -, -, h6⟩ :=
    Job.Error_calls_Done_once Example.healthyBackend (Example.boundJob Example.linearBackoff)
      "boom" World.start
  exact ⟨pre, post, h1, (h6 1 Example.linearBackoff rfl rfl).1 (by decide), h3⟩

/-- An error is not the error that wraps it. -/
theorem GoError.ne_errorfDone (e d : GoError) : e ≠ GoError.errorfDone e d := by
  intro h
  have := congrArg sizeOf h
  simp at this
  omega

/-- C5, as the claim states it, fails: on an adapter whose `UPDATE` fails with
`update failed` and whose commit fails with `commit failed`, `Job.Error`
returns the error that wraps the commit error, and the error of the update is
not in its chain. -/
theorem Job.Error_update_error_not_in_chain :
    (Job.Error Example.failingBackend (Example.boundJob Example.linearBackoff) "boom"
      World.start).1 =
      .returned (some (.errorfDone (.other "update failed") (.other "commit failed"))) ∧
    GoError.other "update failed" ∉
      (GoError.errorfDone (.other "update failed") (.other "commit failed")).chain ∧
    GoError.Is (.errorfDone (.other "update failed") (.other "commit failed"))
      (.other "update failed") = false := by
  refine ⟨rfl, by decide, by decide⟩

/-- C5, amended: when the `UPDATE` issued by `Job.Error` fails with error `e`,
then if the following `Job.Done` returns nil, `Job.Error` returns `e` itself;
and if `Job.Done` fails with the commit error `d`, `Job.Error` returns the
error built from both that wraps `d`: unwrapping it gives `d`, `d` is in its
chain, and `e`, formatted into its text only, is in its chain only if it is in
the chain of `d`. -/
theorem Job.Error_update_failed (B : Backend σ) (j : Job) (msg : String) (w : World σ)
    (tx : TxId) (b : Backoff) (e : GoError) (htx : j.tx = some tx) (hb : j.backoff = some b)
    (hpos : 0 ≤ b (wrapInt32 (j.ErrorCount + 1)))
    (hfail : (B.txExec tx (.updateJob (wrapInt32 (j.ErrorCount + 1))
        ((Time.ofUnixNano (B.timeNow w.st).1).Add (b (wrapInt32 (j.ErrorCount + 1)))) msg
        (Time.ofUnixNano (B.timeNow w.st).1) j.ID) (B.timeNow w.st).2).1 = some e) :
    ((Job.Done B j (Job.errorBody B j msg w).2.2).1 = none →
      (Job.Error B j msg w).1 = .returned (some e)) ∧
    ∀ d, (Job.Done B j (Job.errorBody B j msg w).2.2).1 = some d →
      (Job.Error B j msg w).1 = .returned (some (.errorfDone e d)) ∧
      (GoError.errorfDone e d).Unwrap = some d ∧
      d ∈ (GoError.errorfDone e d).chain ∧
      (e ∈ (GoError.errorfDone e d).chain ↔ e ∈ d.chain) := by
  have hbody := Job.errorBody_update B j msg w tx b htx hb hpos
  have h1 : (Job.errorBody B j msg w).1 = .returned (some e) := by
    rw [hbody]
    simp only [World.call_fst, World.read_st]
    exact congrArg Outcome.returned hfail
  have h2 : (Job.errorBody B j msg w).2.1 = j := by rw [hbody]
  constructor
  · intro hd
    unfold Job.Error
    simp only [h1, h2, hd]
  · intro d hd
    refine ⟨?_, rfl, ?_, ?_⟩
    · unfold Job.Error
      simp only [h1, h2, hd, GoError.mkErrorfDone]
    · have : d ∈ d.chain := by cases d <;> simp [GoError.chain]
      simp [GoError.chain, this]
    · simp only [GoError.chain, List.mem_cons]
      constructor
      · rintro (h | h)
        · exact absurd h (GoError.ne_errorfDone e d)
        · exact h
      · exact Or.inr

end JobError

/-- C5, amended, at concrete inputs: with a failing update and a succeeding
commit the error of the update is returned; with both failing, the error that
wraps the commit error. -/
theorem Job.Error_update_failed_witness :
    (Example.boundJob Example.linearBackoff).tx = some 1 ∧
    (Example.boundJob Example.linearBackoff).backoff = some Example.linearBackoff ∧
    0 ≤ Example.linearBackoff (wrapInt32 ((Example.boundJob Example.linearBackoff).ErrorCount + 1)) ∧
    (Job.Error Example.updateFailingBackend (Example.boundJob Example.linearBackoff) "boom"
      World.start).1 = .returned (some (.other "update failed")) ∧
    (Job.Error Example.failingBackend (Example.boundJob Example.linearBackoff) "boom"
      World.start).1 =
      .returned (some (.errorfDone (.other "update failed") (.other "commit failed"))) ∧
    GoError.other "commit failed" ∈
      (GoError.errorfDone (.other "update failed") (.other "commit failed")).chain :=
  ⟨rfl, rfl, by decide,
    (Job.Error_update_failed Example.updateFailingBackend
      (Example.boundJob Example.linearBackoff) "boom" World.start 1 Example.linearBackoff
      (.other "update failed") rfl rfl (by decide) rfl).1 rfl,
    ((Job.Error_update_failed Example.failingBackend
      (Example.boundJob Example.linearBackoff) "boom" World.start 1 Example.linearBackoff
      (.other "update failed") rfl rfl (by decide) rfl).2 (.other "commit failed") rfl).1,
    ((Job.Error_update_failed Example.failingBackend
      (Example.boundJob Example.linearBackoff) "boom" World.start 1 Example.linearBackoff
      (.other "update failed") rfl rfl (by decide) rfl).2 (.other "commit failed") rfl).2.2.1⟩

/-! ## Enqueue -/

section Enqueue

variable {σ : Type}

/-- C6: for every job whose `Type` is empty, `Enqueue` and `EnqueueTx` return
`ErrMissingType` and leave the job and the world as they were: nothing is
executed on the pool or on the transaction (the trace is unchanged), and
`RunAt`, `Args` and `ID` of the job keep their values. -/
theorem Client.Enqueue_missing_type (B : Backend σ) (c : Client) (j : Job) (tx : TxId)
    (w : World σ) (h : j.Type_ = "") :
    Client.Enqueue B c j w = (some .ErrMissingType, j, w) ∧
    Client.EnqueueTx B c j tx w = (some .ErrMissingType, j, w) ∧
    (Client.Enqueue B c j w).2.2.trace = w.trace ∧
    (Client.EnqueueTx B c j tx w).2.2.trace = w.trace ∧
    (Client.Enqueue B c j w).2.1.RunAt = j.RunAt ∧
    (Client.Enqueue B c j w).2.1.Args = j.Args ∧
    (Client.Enqueue B c j w).2.1.ID = j.ID ∧
    (Client.EnqueueTx B c j tx w).2.1.RunAt = j.RunAt ∧
    (Client.EnqueueTx B c j tx w).2.1.Args = j.Args ∧
    (Client.EnqueueTx B c j tx w).2.1.ID = j.ID := by
  have h1 : Client.Enqueue B c j w = (some .ErrMissingType, j, w) := by
    simp [Client.Enqueue, Client.execEnqueue, h]
  have h2 : Client.EnqueueTx B c j tx w = (some .ErrMissingType, j, w) := by
    simp [Client.EnqueueTx, Client.execEnqueue, h]
  rw [h1, h2]
  simp

/-- C6 at a concrete input: the job with every field at its zero value. -/
theorem Client.Enqueue_missing_type_witness :
    ({} : Job).Type_ = "" ∧
    (Client.Enqueue Example.healthyBackend {} {} World.start).1 = some .ErrMissingType ∧
    (Client.Enqueue Example.healthyBackend {} {} World.start).2.2.trace = [] :=
  ⟨rfl,
    congrArg Prod.fst
      (Client.Enqueue_missing_type Example.healthyBackend {} {} 1 World.start rfl).1,
    (Client.Enqueue_missing_type Example.healthyBackend {} {} 1 World.start rfl).2.2.1⟩

/-- A clock reading is never the zero time. -/
theorem Time.ofUnixNano_not_zero (n : Nat) : (Time.ofUnixNano n).IsZero = false := by
  simp only [Time.IsZero, Time.ofUnixNano, Time.unixToInternal, beq_eq_false_iff_ne, ne_eq]
  omega

/-- What `execEnqueue` does to a job with a type: the `RunAt` it stores, and
the steps it records, which depend on whether the id could be generated. -/
theorem Client.execEnqueue_typed (B : Backend σ) (c : Client) (j : Job) (q : Queryable)
    (w : World σ) (h : j.Type_ ≠ "") :
    (Client.execEnqueue B c j q w).2.1.RunAt =
      (if j.RunAt.IsZero then Time.ofUnixNano (B.timeNow w.st).1 else j.RunAt) ∧
    (Client.execEnqueue B c j q w).2.1.ID =
      (ulidNew B (Time.unixMilli (B.timeNow w.st).1) (w.read B.timeNow).2).1.1 ∧
    (∀ err, (ulidNew B (Time.unixMilli (B.timeNow w.st).1) (w.read B.timeNow).2).1.2 = some err →
      (Client.execEnqueue B c j q w).2.2.trace = w.trace ∧
      (Client.execEnqueue B c j q w).1 = some (.errorfNewID err)) ∧
    ((ulidNew B (Time.unixMilli (B.timeNow w.st).1) (w.read B.timeNow).2).1.2 = none →
      ∃ ok, (Client.execEnqueue B c j q w).2.2.trace = w.trace ++
        [q.execEvent (.insertJob
            (ulidNew B (Time.unixMilli (B.timeNow w.st).1) (w.read B.timeNow).2).1.1.String
            j.Queue j.Priority
            (if j.RunAt.IsZero then Time.ofUnixNano (B.timeNow w.st).1 else j.RunAt)
            j.Type_ (j.Args.getD [])
            (Time.ofUnixNano (B.timeNow w.st).1) (Time.ofUnixNano (B.timeNow w.st).1)),
          .logDebug "Tried to enqueue a job", .metricEnqueue j.Type_ ok]) := by
  have htrace : (ulidNew B (Time.unixMilli (B.timeNow w.st).1) (w.read B.timeNow).2).2.trace
      = w.trace := by
    unfold ulidNew
    split <;> simp
  unfold Client.execEnqueue
  simp only [h, if_false, World.read_fst]
  rcases hu : (ulidNew B (Time.unixMilli (B.timeNow w.st).1) (w.read B.timeNow).2).1.2
    with _ | err
  · refine ⟨?_, rfl, by simp, fun _ => ?_⟩
    · by_cases hz : j.RunAt.IsZero = true <;> by_cases ha : j.Args.isNone = true <;>
        simp [hz, ha]
    · by_cases hz : j.RunAt.IsZero = true <;> by_cases ha : j.Args.isNone = true <;>
        cases q <;>
        simp_all [Queryable.execEvent, Option.isNone_iff_eq_none]
  · refine ⟨?_, rfl, fun err2 h2 => ?_, by simp⟩
    · by_cases hz : j.RunAt.IsZero = true <;> by_cases ha : j.Args.isNone = true <;>
        simp [hz, ha]
    · cases h2
      exact ⟨by simpa using htrace, rfl⟩

/-- C7: for every job with a non-empty `Type`, `Enqueue` stores in `RunAt` the
enqueue instant when `RunAt` was the zero time and leaves it unchanged
otherwise; the stored value is never the zero time; and every statement it
executes is the `INSERT` on the pool whose `run_at` is that value and whose
`created_at` and `updated_at` are the enqueue instant.  Exactly one such
`INSERT` is executed unless `Enqueue` returns the error of the id generation. -/
theorem Client.Enqueue_run_at (B : Backend σ) (c : Client) (j : Job) (w : World σ)
    (h : j.Type_ ≠ "") :
    (j.RunAt.IsZero = true →
      (Client.Enqueue B c j w).2.1.RunAt = Time.ofUnixNano (B.timeNow w.st).1) ∧
    (j.RunAt.IsZero = false → (Client.Enqueue B c j w).2.1.RunAt = j.RunAt) ∧
    (Client.Enqueue B c j w).2.1.RunAt.IsZero = false ∧
    ∃ new, (Client.Enqueue B c j w).2.2.trace = w.trace ++ new ∧
      (∀ e ∈ new, e.isExec = true →
        e = Event.poolExec (.insertJob (Client.Enqueue B c j w).2.1.ID.String j.Queue j.Priority
          (Client.Enqueue B c j w).2.1.RunAt j.Type_ (j.Args.getD [])
          (Time.ofUnixNano (B.timeNow w.st).1) (Time.ofUnixNano (B.timeNow w.st).1))) ∧
      ((∀ err, (Client.Enqueue B c j w).1 ≠ some (.errorfNewID err)) →
        (new.filter Event.isExec).length = 1) := by
  obtain ⟨hrun, hid, herr, hok⟩ := Client.execEnqueue_typed B c j .pool w h
  unfold Client.Enqueue
  refine ⟨fun hz => by rw [hrun, hz]; rfl, fun hz => by rw [hrun, hz]; rfl, ?_, ?_⟩
  · rw [hrun]
    rcases Bool.eq_false_or_eq_true j.RunAt.IsZero with hz | hz
    · rw [hz]
      exact Time.ofUnixNano_not_zero _
    · rw [hz]
      exact hz
  · rcases hu : (ulidNew B (Time.unixMilli (B.timeNow w.st).1) (w.read B.timeNow).2).1.2
      with _ | err
    · obtain ⟨ok, htr⟩ := hok hu
      refine ⟨_, htr, ?_, fun _ => ?_⟩
      · intro e he hex
        rw [hrun, hid]
        simp only [List.mem_cons, List.mem_singleton, List.not_mem_nil, or_false] at he
        rcases he with rfl | rfl | rfl
        · rfl
        · simp [Event.isExec] at hex
        · simp [Event.isExec] at hex
      · simp [Queryable.execEvent, Event.isExec]
    · refine ⟨[], by simpa using (herr err hu).1, by simp, fun hne => ?_⟩
      exact absurd (herr err hu).2 (hne err)

/-- C7 at concrete inputs: a job with the zero `RunAt` is inserted with the
clock reading in `run_at`, `created_at` and `updated_at`; a job with a `RunAt`
keeps it. -/
theorem Client.Enqueue_run_at_witness :
    ({ Type_ := "MyJob" } : Job).Type_ ≠ "" ∧
    (Client.Enqueue Example.healthyBackend {} { Type_ := "MyJob" } World.start).2.1.RunAt =
      ⟨63835596800000000000⟩ ∧
    (Client.Enqueue Example.healthyBackend {} { Type_ := "MyJob" } World.start).2.2.trace =
      [.poolExec (.insertJob "01HF7YAT00000000000000001A" "" 0 ⟨63835596800000000000⟩ "MyJob" []
          ⟨63835596800000000000⟩ ⟨63835596800000000000⟩),
        .logDebug "Tried to enqueue a job", .metricEnqueue "MyJob" true] ∧
    (Client.Enqueue Example.healthyBackend {} { Type_ := "MyJob", RunAt := ⟨5⟩ }
      World.start).2.1.RunAt = ⟨5⟩ :=
  ⟨by decide,
    (Client.Enqueue_run_at Example.healthyBackend {} { Type_ := "MyJob" } World.start
      (by decide)).1 rfl,
    rfl,
    (Client.Enqueue_run_at Example.healthyBackend {} { Type_ := "MyJob", RunAt := ⟨5⟩ }
      World.start (by decide)).2.1 rfl⟩

end Enqueue

/-! ## Locking -/

section Lock

variable {σ : Type}

/-- The error path of `execLockJob`: when `Begin` gave the transaction `tx` and
the scan failed with `err`, the transaction is rolled back, no job is returned,
and the error is the result of the rollback (for `ErrNoRows`, when it is
handled) or `err` wrapped together with the result of the rollback. -/
theorem Client.execLockJob_scan_error (B : Backend σ) (c : Client) (handleErrNoRows : Bool)
    (q : Query) (w : World σ) (tx : TxId) (err : GoError)
    (hbegin : (B.poolBegin w.st).1 = .ok tx)
    (hscan : (B.txQueryRow tx q (B.poolBegin w.st).2).1 = .error err) :
    Client.execLockJob B c handleErrNoRows q w =
      (none,
        if handleErrNoRows && err == .ErrNoRows then
          (B.txRollback tx (B.txQueryRow tx q (B.poolBegin w.st).2).2).1
        else
          some (GoError.mkErrorfLock
            (B.txRollback tx (B.txQueryRow tx q (B.poolBegin w.st).2).2).1 err),
        { st := (B.txRollback tx (B.txQueryRow tx q (B.poolBegin w.st).2).2).2,
          trace := w.trace ++ [.poolBegin, .txQueryRow tx q, .txRollback tx] }) := by
  unfold Client.execLockJob
  simp only [World.call_fst, hbegin, World.call_st, hscan]
  split <;> simp [World.call]

/-- A handle returned by `execLockJob`, with or without an error, has its
transaction and no pool, and is not marked deleted. -/
theorem Client.execLockJob_handle (B : Backend σ) (c : Client) (handleErrNoRows : Bool)
    (q : Query) (w : World σ) (j : Job)
    (h : (Client.execLockJob B c handleErrNoRows q w).1 = some j) :
    j.pool = none ∧ j.tx.isSome = true ∧ j.deleted = false := by
  unfold Client.execLockJob at h
  rcases hb : (B.poolBegin w.st).1 with err | tx
  · simp [hb] at h
  · simp only [World.call_fst, hb, World.call_st] at h
    rcases hs : (B.txQueryRow tx q (B.poolBegin w.st).2).1 with err | row
    · simp only [hs] at h
      split at h <;> simp at h
    · simp only [hs] at h
      rcases hu : ULID.UnmarshalText row.jID with e | id
      · simp only [hu, Option.some.injEq] at h
        subst h
        exact ⟨rfl, rfl, rfl⟩
      · simp only [hu, Option.some.injEq] at h
        subst h
        exact ⟨rfl, rfl, rfl⟩

/-- On a handle without pool, `Job.Done` returns nil and changes nothing: it
does not commit. -/
theorem Job.Done_without_pool (B : Backend σ) (j : Job) (w : World σ) (h : j.pool = none) :
    Job.Done B j w = (none, j, w.emit .jobDone) := by
  unfold Job.Done
  simp [h]

/-- C1, evaluated: on an adapter where every call succeeds and the select
finds a row, `LockJob` returns a handle and no error; `Job.Done` on that handle
returns nil, but records nothing besides its entry (no `Commit` on transaction
1), and `Tx()` still returns the transaction afterwards.  The handle was built
without the pool, which `Job.Done` takes for a handle already done. -/
theorem Job.Done_after_LockJob_skips_commit :
    ∃ j w, Client.LockJob Example.healthyBackend {} "" World.start = (some j, none, w) ∧
      j.Tx = some 1 ∧ j.pool = none ∧
      (Job.Done Example.healthyBackend j w).1 = none ∧
      (Job.Done Example.healthyBackend j w).2.2.trace = w.trace ++ [.jobDone] ∧
      Event.txCommit 1 ∉ (Job.Done Example.healthyBackend j w).2.2.trace ∧
      (Job.Done Example.healthyBackend j w).2.1.Tx = some 1 :=
  ⟨_, _, rfl, rfl, rfl, rfl, rfl, by decide, rfl⟩

/-- Whatever the adapter and whichever lock operation, a handle it returns has
no pool, so `Job.Done` on it never calls `Commit` and never clears the
transaction. -/
theorem Job.Done_of_locked_handle (B : Backend σ) (c : Client) (handleErrNoRows : Bool)
    (q : Query) (w w2 : World σ) (j : Job)
    (h : (Client.execLockJob B c handleErrNoRows q w).1 = some j) :
    Job.Done B j w2 = (none, j, w2.emit .jobDone) ∧ (Job.Done B j w2).2.1.Tx ≠ none := by
  obtain ⟨hp, htx, -⟩ := Client.execLockJob_handle B c handleErrNoRows q w j h
  rw [Job.Done_without_pool B j w2 hp]
  refine ⟨rfl, ?_⟩
  intro hnone
  simp [Job.Tx] at hnone
  simp [hnone] at htx

/-- C9, as the claim states it, fails: on an adapter whose select finds no row
and whose rollback fails, `LockJob` and `LockNextScheduledJob` return a nil job
and the error of the rollback, not `(nil, nil)`. -/
theorem Client.LockJob_no_rows_rollback_error :
    (Example.rollbackFailingBackend.txQueryRow 1
      (.lockJob "" (Time.ofUnixNano 1700000000000000000)) 1).1 = .error .ErrNoRows ∧
    (Client.LockJob Example.rollbackFailingBackend {} "" World.start).1.isNone = true ∧
    (Client.LockJob Example.rollbackFailingBackend {} "" World.start).2.1 =
      some (.other "connection lost") ∧
    (Client.LockNextScheduledJob Example.rollbackFailingBackend {} "" World.start).1.isNone
      = true ∧
    (Client.LockNextScheduledJob Example.rollbackFailingBackend {} "" World.start).2.1 =
      some (.other "connection lost") :=
  ⟨rfl, rfl, rfl, rfl, rfl⟩

/-- C9, amended: for `LockJob` and `LockNextScheduledJob`, whenever `Begin`
gave a transaction and the scan of the select reports `ErrNoRows`, `Rollback`
is called on that transaction (the calls made are `Begin`, the select and the
rollback), the returned job is nil and the returned error is the result of the
rollback: `(nil, nil)` when the rollback succeeds. -/
theorem Client.LockJob_miss (B : Backend σ) (c : Client) (queue : String) (w : World σ)
    (tx : TxId) (hbegin : (B.poolBegin (B.timeNow w.st).2).1 = .ok tx) :
    ((B.txQueryRow tx (.lockJob queue (Time.ofUnixNano (B.timeNow w.st).1))
        (B.poolBegin (B.timeNow w.st).2).2).1 = .error .ErrNoRows →
      (Client.LockJob B c queue w).1 = none ∧
      (Client.LockJob B c queue w).2.1 =
        (B.txRollback tx (B.txQueryRow tx (.lockJob queue (Time.ofUnixNano (B.timeNow w.st).1))
          (B.poolBegin (B.timeNow w.st).2).2).2).1 ∧
      (Client.LockJob B c queue w).2.2.trace = w.trace ++
        [.poolBegin, .txQueryRow tx (.lockJob queue (Time.ofUnixNano (B.timeNow w.st).1)),
          .txRollback tx] ∧
      ((B.txRollback tx (B.txQueryRow tx (.lockJob queue (Time.ofUnixNano (B.timeNow w.st).1))
          (B.poolBegin (B.timeNow w.st).2).2).2).1 = none →
        (Client.LockJob B c queue w).2.1 = none)) ∧
    ((B.txQueryRow tx (.lockNextScheduledJob queue (Time.ofUnixNano (B.timeNow w.st).1))
        (B.poolBegin (B.timeNow w.st).2).2).1 = .error .ErrNoRows →
      (Client.LockNextScheduledJob B c queue w).1 = none ∧
      (Client.LockNextScheduledJob B c queue w).2.1 =
        (B.txRollback tx (B.txQueryRow tx
          (.lockNextScheduledJob queue (Time.ofUnixNano (B.timeNow w.st).1))
          (B.poolBegin (B.timeNow w.st).2).2).2).1 ∧
      (Client.LockNextScheduledJob B c queue w).2.2.trace = w.trace ++
        [.poolBegin,
          .txQueryRow tx (.lockNextScheduledJob queue (Time.ofUnixNano (B.timeNow w.st).1)),
          .txRollback tx] ∧
      ((B.txRollback tx (B.txQueryRow tx
          (.lockNextScheduledJob queue (Time.ofUnixNano (B.timeNow w.st).1))
          (B.poolBegin (B.timeNow w.st).2).2).2).1 = none →
        (Client.LockNextScheduledJob B c queue w).2.1 = none)) := by
  constructor
  · intro hscan
    have h := Client.execLockJob_scan_error B c true
      (.lockJob queue (Time.ofUnixNano (B.timeNow w.st).1)) (w.read B.timeNow).2 tx .ErrNoRows
      hbegin hscan
    have h2 : Client.LockJob B c queue w = _ := h
    rw [h2]
    refine ⟨rfl, rfl, rfl, fun hrb => ?_⟩
    simpa using hrb
  · intro hscan
    have h := Client.execLockJob_scan_error B c true
      (.lockNextScheduledJob queue (Time.ofUnixNano (B.timeNow w.st).1)) (w.read B.timeNow).2 tx
      .ErrNoRows hbegin hscan
    have h2 : Client.LockNextScheduledJob B c queue w = _ := h
    rw [h2]
    refine ⟨rfl, rfl, rfl, fun hrb => ?_⟩
    simpa using hrb

/-- C9, amended, at a concrete input: on an adapter whose select finds no row
and whose rollback succeeds, both operations return `(nil, nil)` after the
rollback. -/
theorem Client.LockJob_miss_witness :
    (Example.emptyBackend.poolBegin (Example.emptyBackend.timeNow World.start.st).2).1 = .ok 1 ∧
    (Client.LockJob Example.emptyBackend {} "" World.start).1 = none ∧
    (Client.LockJob Example.emptyBackend {} "" World.start).2.1 = none ∧
    (Client.LockJob Example.emptyBackend {} "" World.start).2.2.trace =
      [.poolBegin, .txQueryRow 1 (.lockJob "" ⟨63835596800000000000⟩), .txRollback 1] ∧
    (Client.LockNextScheduledJob Example.emptyBackend {} "" World.start).1 = none ∧
    (Client.LockNextScheduledJob Example.emptyBackend {} "" World.start).2.1 = none :=
  ⟨rfl,
    ((Client.LockJob_miss Example.emptyBackend {} "" World.start 1 rfl).1 rfl).1,
    ((Client.LockJob_miss Example.emptyBackend {} "" World.start 1 rfl).1 rfl).2.2.2 rfl,
    ((Client.LockJob_miss Example.emptyBackend {} "" World.start 1 rfl).1 rfl).2.2.1,
    ((Client.LockJob_miss Example.emptyBackend {} "" World.start 1 rfl).2 rfl).1,
    ((Client.LockJob_miss Example.emptyBackend {} "" World.start 1 rfl).2 rfl).2.2.2 rfl⟩

/-- The wrapped error is in the chain of the error `execLockJob` builds. -/
theorem GoError.mem_chain_mkErrorfLock (rbErr : Option GoError) (err : GoError)
    (h : err ∈ err.chain) : err ∈ (GoError.mkErrorfLock rbErr err).chain := by
  cases rbErr <;> simp [GoError.mkErrorfLock, GoError.chain, h]

/-- C10: for `LockJobByID`, whenever `Begin` gave a transaction and the scan
reports `ErrNoRows`, `Rollback` is called on that transaction (the calls made
are `Begin`, the select by id and the rollback), the returned job is nil and
the returned error is not nil and has `ErrNoRows` in its chain, whatever the
rollback returned.  And in no world does `LockJobByID` return `(nil, nil)`. -/
theorem Client.LockJobByID_miss (B : Backend σ) (c : Client) (id : ULID) (w : World σ)
    (tx : TxId) (hbegin : (B.poolBegin w.st).1 = .ok tx)
    (hscan : (B.txQueryRow tx (.lockJobByID id.String) (B.poolBegin w.st).2).1
      = .error .ErrNoRows) :
    (Client.LockJobByID B c id w).1 = none ∧
    (∃ err, (Client.LockJobByID B c id w).2.1 = some err ∧
      GoError.ErrNoRows ∈ err.chain ∧ err.Is .ErrNoRows = true ∧
      err.Unwrap = some .ErrNoRows) ∧
    (Client.LockJobByID B c id w).2.2.trace =
      w.trace ++ [.poolBegin, .txQueryRow tx (.lockJobByID id.String), .txRollback tx] ∧
    ∀ w2 : World σ, ¬ ((Client.LockJobByID B c id w2).1 = none ∧
      (Client.LockJobByID B c id w2).2.1 = none) := by
  have h := Client.execLockJob_scan_error B c false (.lockJobByID id.String) w tx .ErrNoRows
    hbegin hscan
  have h2 : Client.LockJobByID B c id w = _ := h
  refine ⟨by rw [h2], ?_, by rw [h2], ?_⟩
  · rw [h2]
    have hmem : GoError.ErrNoRows ∈
        (GoError.mkErrorfLock (B.txRollback tx
          (B.txQueryRow tx (.lockJobByID id.String) (B.poolBegin w.st).2).2).1 .ErrNoRows).chain :=
      GoError.mem_chain_mkErrorfLock _ _ (by simp [GoError.chain])
    refine ⟨_, by simp, hmem, by simpa [GoError.Is] using hmem, ?_⟩
    cases (B.txRollback tx (B.txQueryRow tx (.lockJobByID id.String) (B.poolBegin w.st).2).2).1
      <;> rfl
  · intro w2
    unfold Client.LockJobByID Client.execLockJob
    rcases hb : (B.poolBegin w2.st).1 with err | t
    · simp [hb]
    · simp only [World.call_fst, hb, World.call_st]
      rcases hs : (B.txQueryRow t (.lockJobByID id.String) (B.poolBegin w2.st).2).1
        with err | row
      · simp
      · simp only []
        rcases hu : ULID.UnmarshalText row.jID with e | u <;> simp

/-- C10 at a concrete input: on an adapter whose select finds no row, the error
of `LockJobByID` wraps `ErrNoRows`. -/
theorem Client.LockJobByID_miss_witness :
    (Example.emptyBackend.poolBegin World.start.st).1 = .ok 1 ∧
    (Example.emptyBackend.txQueryRow 1 (.lockJobByID (ULID.String ⟨1700000000000, 42⟩))
      (Example.emptyBackend.poolBegin World.start.st).2).1 = .error .ErrNoRows ∧
    (Client.LockJobByID Example.emptyBackend {} ⟨1700000000000, 42⟩ World.start).1 = none ∧
    (Client.LockJobByID Example.emptyBackend {} ⟨1700000000000, 42⟩ World.start).2.1 =
      some (.errorfLockNil .ErrNoRows) ∧
    (Client.LockJobByID Example.emptyBackend {} ⟨1700000000000, 42⟩ World.start).2.2.trace =
      [.poolBegin, .txQueryRow 1 (.lockJobByID "01HF7YAT00000000000000001A"), .txRollback 1] :=
  ⟨rfl, rfl,
    (Client.LockJobByID_miss Example.emptyBackend {} ⟨1700000000000, 42⟩ World.start 1
      rfl rfl).1,
    rfl,
    (Client.LockJobByID_miss Example.emptyBackend {} ⟨1700000000000, 42⟩ World.start 1
      rfl rfl).2.2.1⟩

end Lock

/-! ## The text of an id -/

section Codec

theorem ULID.digits_length (k n : Nat) : (ULID.digits k n).length = k := by
  induction k generalizing n with
  | zero => rfl
  | succ k ih => simp [ULID.digits, ih]

theorem ULID.digits_lt (k n : Nat) : ∀ d ∈ ULID.digits k n, d < 32 := by
  induction k generalizing n with
  | zero => simp [ULID.digits]
  | succ k ih =>
    intro d hd
    simp only [ULID.digits, List.mem_append, List.mem_singleton] at hd
    rcases hd with hd | rfl
    · exact ih _ d hd
    · exact Nat.mod_lt _ (by decide)

theorem ULID.ofDigits_append (ds : List Nat) (d : Nat) :
    ULID.ofDigits (ds ++ [d]) = ULID.ofDigits ds * 32 + d := by
  simp [ULID.ofDigits, List.foldl_append]

theorem ULID.ofDigits_digits (k n : Nat) : ULID.ofDigits (ULID.digits k n) = n % 32 ^ k := by
  induction k generalizing n with
  | zero => simp [ULID.digits, ULID.ofDigits, Nat.mod_one]
  | succ k ih =>
    rw [ULID.digits, ULID.ofDigits_append, ih, pow_succ', Nat.mod_mul]
    ring

theorem ULID.digits_head (k n : Nat) :
    (ULID.digits (k + 1) n).head? = some (n / 32 ^ k % 32) := by
  induction k generalizing n with
  | zero => simp [ULID.digits]
  | succ k ih =>
    rw [ULID.digits, List.head?_append_of_ne_nil]
    · rw [ih, Nat.div_div_eq_div_mul, pow_succ]
      congr 3
      ring
    · intro h
      have := congrArg List.length h
      simp [ULID.digits_length] at this

theorem ULID.decodeChar_encodeDigit (d : Nat) (h : d < 32) :
    ULID.decodeChar (ULID.encodeDigit d) = d := by
  interval_cases d <;> rfl

theorem ULID.encodeDigit_le_seven (d : Nat) (h : d ≤ 7) : ¬ (ULID.encodeDigit d > '7') := by
  interval_cases d <;> decide

/-- Reading a text of 26 digit characters whose first digit is at most 7. -/
theorem ULID.UnmarshalText_digits (d0 : Nat) (rest : List Nat) (hlen : rest.length = 25)
    (hd0 : d0 ≤ 7) (hlt : ∀ d ∈ d0 :: rest, d < 32) :
    ULID.UnmarshalText ⟨(d0 :: rest).map ULID.encodeDigit⟩ =
      .ok (ULID.ofNat (ULID.ofDigits (d0 :: rest))) := by
  have hdec : ((d0 :: rest).map ULID.encodeDigit).map ULID.decodeChar = d0 :: rest := by
    rw [List.map_map]
    conv_rhs => rw [← List.map_id (d0 :: rest)]
    apply List.map_congr_left
    intro d hd
    exact ULID.decodeChar_encodeDigit d (hlt d hd)
  unfold ULID.UnmarshalText
  rw [if_neg (by simp [hlen]), hdec]
  rw [if_neg]
  exact ULID.encodeDigit_le_seven d0 hd0

/-- The number of a well-formed ULID has 128 bits. -/
theorem ULID.toNat_lt (u : ULID) (hms : u.ms ≤ ULID.MaxTime)
    (he : u.entropy < 1208925819614629174706176) :
    u.toNat < 340282366920938463463374607431768211456 := by
  rcases u with ⟨ms, en⟩
  simp only [ULID.MaxTime, ULID.toNat] at *
  omega

/-- A well-formed ULID is the ULID of its number. -/
theorem ULID.ofNat_toNat (u : ULID) (hms : u.ms ≤ ULID.MaxTime)
    (he : u.entropy < 1208925819614629174706176) : ULID.ofNat u.toNat = u := by
  rcases u with ⟨ms, en⟩
  simp only [ULID.MaxTime, ULID.toNat, ULID.ofNat, ULID.mk.injEq] at *
  constructor <;> omega

/-- Reading the canonical text of a well-formed ULID gives the ULID back. -/
theorem ULID.UnmarshalText_String (u : ULID) (hms : u.ms ≤ ULID.MaxTime)
    (he : u.entropy < 1208925819614629174706176) : ULID.UnmarshalText u.String = .ok u := by
  have hn := ULID.toNat_lt u hms he
  have hlen := ULID.digits_length 26 u.toNat
  have hlt := ULID.digits_lt 26 u.toNat
  have hhead := ULID.digits_head 25 u.toNat
  have hval := ULID.ofDigits_digits 26 u.toNat
  have hstr : u.String = ⟨(ULID.digits 26 u.toNat).map ULID.encodeDigit⟩ := rfl
  rw [hstr]
  generalize ULID.digits 26 u.toNat = ds at hlen hlt hhead hval
  rcases ds with _ | ⟨d0, rest⟩
  · simp at hlen
  · simp only [List.head?_cons, Option.some.injEq] at hhead
    have hd0 : d0 ≤ 7 := by
      have : u.toNat / 32 ^ 25 < 8 := by
        rw [Nat.div_lt_iff_lt_mul (by positivity)]
        norm_num
        omega
      omega
    rw [ULID.UnmarshalText_digits d0 rest (by simpa using hlen) hd0 hlt, hval]
    congr 1
    have hmod : u.toNat % 32 ^ 26 = u.toNat := Nat.mod_eq_of_lt (by norm_num; omega)
    rw [hmod]
    exact ULID.ofNat_toNat u hms he

end Codec

/-! ## Enqueue, then lock by id, on the table -/

section RoundTrip

/-- An id that `ulid.New` returns without error is well formed. -/
theorem ulidNew_wf {σ : Type} (B : Backend σ) (ms : Nat) (w : World σ)
    (h : (ulidNew B ms w).1.2 = none) :
    (ulidNew B ms w).1.1.ms ≤ ULID.MaxTime ∧
    (ulidNew B ms w).1.1.entropy < 1208925819614629174706176 := by
  unfold ulidNew at h ⊢
  by_cases hbig : ms > ULID.MaxTime
  · simp [hbig] at h
  · simp only [hbig, if_false]
    exact ⟨not_lt.mp hbig, Nat.mod_lt _ (by decide)⟩

/-- Reading the clock and the entropy of the table changes neither rows nor
transactions. -/
theorem DB.ulidNew_frame (ms : Nat) (w : World DB) :
    (ulidNew DB.backend ms ((w.read DB.backend.timeNow).2)).2.st.rows = w.st.rows ∧
    (ulidNew DB.backend ms ((w.read DB.backend.timeNow).2)).2.st.txs = w.st.txs := by
  unfold ulidNew
  by_cases hbig : ms > ULID.MaxTime
  · simp only [hbig, if_true]
    exact ⟨rfl, rfl⟩
  · simp only [hbig, if_false, World.read_st]
    simp only [DB.backend, DB.timeNow, DB.entropyRead]
    rcases hr : w.st.random with _ | ⟨r, rest⟩
    · exact ⟨rfl, rfl⟩
    · simp only []
      split
      · split <;> exact ⟨rfl, rfl⟩
      · exact ⟨rfl, rfl⟩

/-- What `Enqueue` returns, and the state it leaves, when the id was
generated: those of the `INSERT` on the pool. -/
theorem Client.Enqueue_insert {σ : Type} (B : Backend σ) (c : Client) (j : Job) (w : World σ)
    (h : j.Type_ ≠ "")
    (hu : (ulidNew B (Time.unixMilli (B.timeNow w.st).1) (w.read B.timeNow).2).1.2 = none) :
    (Client.Enqueue B c j w).1 =
      (B.poolExec (.insertJob
        (ulidNew B (Time.unixMilli (B.timeNow w.st).1) (w.read B.timeNow).2).1.1.String
        j.Queue j.Priority
        (if j.RunAt.IsZero then Time.ofUnixNano (B.timeNow w.st).1 else j.RunAt)
        j.Type_ (j.Args.getD [])
        (Time.ofUnixNano (B.timeNow w.st).1) (Time.ofUnixNano (B.timeNow w.st).1))
        (ulidNew B (Time.unixMilli (B.timeNow w.st).1) (w.read B.timeNow).2).2.st).1 ∧
    (Client.Enqueue B c j w).2.2.st =
      (B.poolExec (.insertJob
        (ulidNew B (Time.unixMilli (B.timeNow w.st).1) (w.read B.timeNow).2).1.1.String
        j.Queue j.Priority
        (if j.RunAt.IsZero then Time.ofUnixNano (B.timeNow w.st).1 else j.RunAt)
        j.Type_ (j.Args.getD [])
        (Time.ofUnixNano (B.timeNow w.st).1) (Time.ofUnixNano (B.timeNow w.st).1))
        (ulidNew B (Time.unixMilli (B.timeNow w.st).1) (w.read B.timeNow).2).2.st).2 ∧
    (Client.Enqueue B c j w).2.1.Args = some (j.Args.getD []) := by
  unfold Client.Enqueue Client.execEnqueue
  simp only [h, if_false, World.read_fst, hu]
  by_cases hz : j.RunAt.IsZero = true <;> rcases ha : j.Args with _ | a <;>
    simp [hz, ha]

/-- What an `INSERT` on the pool of the table does. -/
theorem DB.poolExec_insert (d : DB) (id q : String) (p : Int) (ra : Time) (t : String)
    (a : List UInt8) (ca ua : Time)
    (h : (DB.poolExec (.insertJob id q p ra t a ca ua) d).1 = none) :
    DB.hasKey d.rows id = false ∧
    (DB.poolExec (.insertJob id q p ra t a ca ua) d).2.rows = d.rows ++
      [{ job_id := id, queue := q, priority := p, run_at := ra, job_type := t, args := a,
         error_count := 0, last_error := none, created_at := ca, updated_at := ua,
         lockedBy := none }] ∧
    (DB.poolExec (.insertJob id q p ra t a ca ua) d).2.txs = d.txs := by
  unfold DB.poolExec at h ⊢
  by_cases hk : DB.hasKey d.rows id = true
  · simp [hk] at h
  · simp [hk, DB.applyStmt]

/-- After an `Enqueue` on the table that returned nil, the table is the one
before with the row of the job appended; the id of the job is well formed and
was not in the table. -/
theorem DB.Enqueue_ok (c : Client) (j : Job) (w : World DB) (h : j.Type_ ≠ "")
    (hok : (Client.Enqueue DB.backend c j w).1 = none) :
    (Client.Enqueue DB.backend c j w).2.1.ID.ms ≤ ULID.MaxTime ∧
    (Client.Enqueue DB.backend c j w).2.1.ID.entropy < 1208925819614629174706176 ∧
    (Client.Enqueue DB.backend c j w).2.1.Args = some (j.Args.getD []) ∧
    DB.hasKey w.st.rows (Client.Enqueue DB.backend c j w).2.1.ID.String = false ∧
    (Client.Enqueue DB.backend c j w).2.2.st.rows = w.st.rows ++
      [{ job_id := (Client.Enqueue DB.backend c j w).2.1.ID.String, queue := j.Queue,
         priority := j.Priority,
         run_at := if j.RunAt.IsZero then Time.ofUnixNano (DB.backend.timeNow w.st).1
           else j.RunAt,
         job_type := j.Type_, args := j.Args.getD [],
         error_count := 0, last_error := none,
         created_at := Time.ofUnixNano (DB.backend.timeNow w.st).1,
         updated_at := Time.ofUnixNano (DB.backend.timeNow w.st).1,
         lockedBy := none }] := by
  obtain ⟨-, hid, herr, -⟩ := Client.execEnqueue_typed DB.backend c j .pool w h
  have hid2 : (Client.Enqueue DB.backend c j w).2.1.ID = _ := hid
  rcases hu : (ulidNew DB.backend (Time.unixMilli (DB.backend.timeNow w.st).1)
      (w.read DB.backend.timeNow).2).1.2 with _ | err
  · obtain ⟨h1, h2, h3⟩ := Client.Enqueue_insert DB.backend c j w h hu
    obtain ⟨hwf1, hwf2⟩ := ulidNew_wf DB.backend _ _ hu
    obtain ⟨hrows, -⟩ := DB.ulidNew_frame (Time.unixMilli (DB.backend.timeNow w.st).1) w
    rw [hok] at h1
    obtain ⟨hk, hins, -⟩ := DB.poolExec_insert _ _ _ _ _ _ _ _ _ h1.symm
    rw [hid2]
    refine ⟨hwf1, hwf2, h3, ?_, ?_⟩
    · rw [← hrows]
      exact hk
    · rw [h2, ← hrows]
      exact hins
  · have h4 : (Client.Enqueue DB.backend c j w).1 = some (.errorfNewID err) := (herr err hu).2
    rw [hok] at h4
    cases h4

/-- On the table, a select by id in a transaction just begun finds the last
row when that row has the id, is not locked, and no row before it has the id. -/
theorem DB.txQueryRow_last (d : DB) (rs : List Row) (row : Row) (key : String)
    (hrows : d.rows = rs ++ [row]) (hkey : row.job_id = key) (hfree : row.lockedBy = none)
    (hnew : DB.hasKey rs key = false) :
    (DB.txQueryRow d.txs.length (.lockJobByID key) (DB.poolBegin d).2).1
      = .ok (DB.toScanRow row) := by
  have hopen : (DB.poolBegin d).2.isOpenTx d.txs.length = true := by
    simp [DB.poolBegin, DB.isOpenTx]
  have hview : (DB.poolBegin d).2.view d.txs.length = rs ++ [row] := by
    simp [DB.poolBegin, DB.view, hrows]
  have hnone : rs.filter (fun r => (r.lockedBy.isNone || r.lockedBy == some d.txs.length)
      && DB.Matches (.lockJobByID key) r) = [] := by
    rw [List.filter_eq_nil_iff]
    intro r hr
    have : (r.job_id == key) = false := by
      unfold DB.hasKey at hnew
      rw [List.any_eq_false] at hnew
      simpa using hnew r hr
    simp [DB.Matches, this]
  unfold DB.txQueryRow
  simp only [hopen, Bool.not_true, Bool.false_eq_true, if_false, hview, List.filter_append, hnone,
    List.nil_append]
  simp [DB.Matches, hkey, hfree, DB.first]

/-- On the table, `LockJobByID` finds the row the conditions of
`DB.txQueryRow_last` describe, and returns its columns. -/
theorem DB.LockJobByID_last (c : Client) (id : ULID) (w : World DB) (rs : List Row) (row : Row)
    (hms : id.ms ≤ ULID.MaxTime) (he : id.entropy < 1208925819614629174706176)
    (hrows : w.st.rows = rs ++ [row]) (hkey : row.job_id = id.String)
    (hfree : row.lockedBy = none) (hnew : DB.hasKey rs id.String = false) :
    ∃ k, (Client.LockJobByID DB.backend c id w).1 = some k ∧
      (Client.LockJobByID DB.backend c id w).2.1 = none ∧
      k.ID = id ∧ k.Queue = row.queue ∧ k.Priority = row.priority ∧ k.Type_ = row.job_type ∧
      k.Args = some row.args ∧ k.ErrorCount = row.error_count ∧
      k.LastError = row.last_error := by
  have hq := DB.txQueryRow_last w.st rs row id.String hrows hkey hfree hnew
  have hu : ULID.UnmarshalText (DB.toScanRow row).jID = .ok id := by
    simp only [DB.toScanRow, hkey]
    exact ULID.UnmarshalText_String id hms he
  unfold Client.LockJobByID Client.execLockJob
  simp only [World.call_fst, World.call_st]
  have hb : (DB.backend.poolBegin w.st).1 = .ok w.st.txs.length := rfl
  have hq2 : (DB.backend.txQueryRow w.st.txs.length (.lockJobByID id.String)
      (DB.backend.poolBegin w.st).2).1 = .ok (DB.toScanRow row) := hq
  rw [hb]
  simp only []
  rw [hq2]
  simp only []
  rw [hu]
  exact ⟨_, rfl, rfl, rfl, rfl, rfl, rfl, rfl, rfl, rfl⟩

/-- C8: on the table, for every job with a non-empty `Type`, after an
`Enqueue` that returned nil, `LockJobByID` with the id `Enqueue` gave the job
returns a job and no error; `Queue`, `Priority`, `Type` and `Args` of that job
are those of the enqueued job (`Args` as `Enqueue` left it, the empty byte
string for nil), its `ErrorCount` is 0 and its `LastError` is null. -/
theorem Client.Enqueue_LockJobByID_round_trip (c : Client) (j : Job) (w : World DB)
    (h : j.Type_ ≠ "") (hok : (Client.Enqueue DB.backend c j w).1 = none) :
    ∃ k, (Client.LockJobByID DB.backend c (Client.Enqueue DB.backend c j w).2.1.ID
        (Client.Enqueue DB.backend c j w).2.2).1 = some k ∧
      (Client.LockJobByID DB.backend c (Client.Enqueue DB.backend c j w).2.1.ID
        (Client.Enqueue DB.backend c j w).2.2).2.1 = none ∧
      k.Queue = j.Queue ∧ k.Priority = j.Priority ∧ k.Type_ = j.Type_ ∧
      k.Args = (Client.Enqueue DB.backend c j w).2.1.Args ∧
      k.Args = some (j.Args.getD []) ∧
      (j.Args = none → k.Args = some []) ∧
      k.ErrorCount = 0 ∧ k.LastError = none ∧
      k.ID = (Client.Enqueue DB.backend c j w).2.1.ID := by
  obtain ⟨hms, he, hargs, hnew, hrows⟩ := DB.Enqueue_ok c j w h hok
  obtain ⟨k, h1, h2, h3, h4, h5, h6, h7, h8, h9⟩ :=
    DB.LockJobByID_last c (Client.Enqueue DB.backend c j w).2.1.ID
      (Client.Enqueue DB.backend c j w).2.2 w.st.rows _ hms he hrows rfl rfl hnew
  refine ⟨k, h1, h2, h4, h5, h6, ?_, h7, ?_, h8, h9, h3⟩
  · rw [h7, hargs]
  · intro hnil
    rw [h7, hnil]
    rfl

/-- C8 at a concrete input: a job with only its type, and a job with a queue, a
priority and arguments, enqueued on the empty table and locked by id. -/
theorem Client.Enqueue_LockJobByID_round_trip_witness :
    ({ Type_ := "MyJob" } : Job).Type_ ≠ "" ∧
    (Client.Enqueue DB.backend {} { Type_ := "MyJob" } Example.emptyTable).1 = none ∧
    (∃ k, (Client.LockJobByID DB.backend {}
        (Client.Enqueue DB.backend {} { Type_ := "MyJob" } Example.emptyTable).2.1.ID
        (Client.Enqueue DB.backend {} { Type_ := "MyJob" } Example.emptyTable).2.2).1 = some k ∧
      k.Queue = "" ∧ k.Priority = 0 ∧ k.Type_ = "MyJob" ∧ k.Args = some [] ∧
      k.ErrorCount = 0 ∧ k.LastError = none) ∧
    (∃ k, (Client.LockJobByID DB.backend {}
        (Client.Enqueue DB.backend {} Example.fullJob Example.emptyTable).2.1.ID
        (Client.Enqueue DB.backend {} Example.fullJob Example.emptyTable).2.2).1 = some k ∧
      k.Queue = "special-work-queue" ∧ k.Priority = 99 ∧ k.Args = some [123, 125]) := by
  refine ⟨by decide, rfl, ?_, ?_⟩
  · obtain ⟨k, h1, -, h3, h4, h5, -, h7, -, h9, h10, -⟩ :=
      Client.Enqueue_LockJobByID_round_trip {} { Type_ := "MyJob" } Example.emptyTable
        (by decide) rfl
    exact ⟨k, h1, h3, h4, h5, h7, h9, h10⟩
  · obtain ⟨k, h1, -, h3, h4, -, -, h7, -⟩ :=
      Client.Enqueue_LockJobByID_round_trip {} Example.fullJob Example.emptyTable
        (by decide) rfl
    exact ⟨k, h1, h3, h4, h7⟩

end RoundTrip

/-! ## Errors of the lock operations -/

section LockErrors

/-- C11, evaluated: on an adapter whose select finds a row with the `job_id`
`not-a-ulid`, each lock operation returns a non-nil error after `Begin`
succeeded, and with it a job; the calls made are `Begin` and the select, the
transaction is not rolled back. -/
theorem Client.LockJob_bad_id_returns_job_without_rollback :
    (Client.LockJob Example.badIDBackend {} "" World.start).1.isSome = true ∧
    (Client.LockJob Example.badIDBackend {} "" World.start).2.1 =
      some (.errorfUnmarshalID .ulidErrDataSize) ∧
    (Client.LockJob Example.badIDBackend {} "" World.start).2.2.trace =
      [.poolBegin, .txQueryRow 1 (.lockJob "" ⟨63835596800000000000⟩)] ∧
    Event.txRollback 1 ∉ (Client.LockJob Example.badIDBackend {} "" World.start).2.2.trace ∧
    (Client.LockJobByID Example.badIDBackend {} ⟨1700000000000, 42⟩ World.start).1.isSome
      = true ∧
    (Client.LockJobByID Example.badIDBackend {} ⟨1700000000000, 42⟩ World.start).2.1 =
      some (.errorfUnmarshalID .ulidErrDataSize) ∧
    Event.txRollback 1 ∉
      (Client.LockJobByID Example.badIDBackend {} ⟨1700000000000, 42⟩ World.start).2.2.trace ∧
    (Client.LockNextScheduledJob Example.badIDBackend {} "" World.start).1.isSome = true ∧
    (Client.LockNextScheduledJob Example.badIDBackend {} "" World.start).2.1 =
      some (.errorfUnmarshalID .ulidErrDataSize) ∧
    Event.txRollback 1 ∉
      (Client.LockNextScheduledJob Example.badIDBackend {} "" World.start).2.2.trace := by
  refine ⟨rfl, rfl, rfl, by decide, rfl, rfl, by decide, rfl, rfl, by decide⟩

end LockErrors

/-! ## Idempotence of `Job.Done` and `Job.Delete` -/

section Idempotent

variable {σ : Type}

/-- After a `Job.Done` that returned nil, the handle has no transaction or no
pool. -/
theorem Job.Done_ok_spent (B : Backend σ) (j : Job) (w : World σ)
    (h : (Job.Done B j w).1 = none) :
    (Job.Done B j w).2.1.tx = none ∨ (Job.Done B j w).2.1.pool = none := by
  unfold Job.Done at h ⊢
  rcases htx : j.tx with _ | tx
  · simp [htx]
  · rcases hp : j.pool with _ | p
    · simp [hp]
    · rw [htx, hp] at h
      rcases hc : (B.txCommit tx w.st).1 with _ | err
      · simp [hc]
      · simp [hc] at h

/-- On a handle without transaction or without pool, `Job.Done` returns nil and
records only its entry. -/
theorem Job.Done_spent (B : Backend σ) (j : Job) (w : World σ)
    (h : j.tx = none ∨ j.pool = none) : Job.Done B j w = (none, j, w.emit .jobDone) := by
  unfold Job.Done
  rcases h with h | h <;> simp [h]

/-- A call of `Job.Done` that commits leaves a handle on which no later call
commits. -/
theorem Job.doneCalls_spent (B : Backend σ) (ws : List (World σ)) (j : Job)
    (h : j.tx = none ∨ j.pool = none) : (Job.doneCalls B ws j).1 = 0 := by
  induction ws generalizing j with
  | nil => rfl
  | cons w ws ih =>
    have hc : Job.doneCommits B j w = false := by
      unfold Job.doneCommits
      rcases h with h | h <;> simp [h]
    simp only [Job.doneCalls, hc, Bool.false_eq_true, if_false, Nat.zero_add]
    rw [Job.Done_spent B j w h]
    exact ih j h

/-- C14: `Job.Done` is idempotent.  After a call that returned nil, every
further call, in whatever world, returns nil, records only its entry (it does
not call `Commit`) and leaves the handle unchanged; and over any sequence of
calls on one handle, in whatever worlds, at most one call commits. -/
theorem Job.Done_idempotent (B : Backend σ) (j : Job) (w : World σ) :
    ((Job.Done B j w).1 = none →
      ∀ w2 : World σ,
        Job.Done B (Job.Done B j w).2.1 w2 = (none, (Job.Done B j w).2.1, w2.emit .jobDone) ∧
        (Job.Done B (Job.Done B j w).2.1 w2).2.2.trace = w2.trace ++ [.jobDone]) ∧
    ∀ ws : List (World σ), (Job.doneCalls B ws j).1 ≤ 1 := by
  constructor
  · intro h w2
    have hs := Job.Done_spent B _ w2 (Job.Done_ok_spent B j w h)
    rw [hs]
    exact ⟨rfl, rfl⟩
  · intro ws
    induction ws generalizing j with
    | nil => simp [Job.doneCalls]
    | cons w1 ws ih =>
      by_cases hc : Job.doneCommits B j w1 = true
      · have hok : (Job.Done B j w1).1 = none := by
          unfold Job.doneCommits at hc
          simp only [Bool.and_eq_true, Option.isNone_iff_eq_none] at hc
          exact hc.2
        have := Job.doneCalls_spent B ws _ (Job.Done_ok_spent B j w1 hok)
        simp [Job.doneCalls, hc, this]
      · simp only [Job.doneCalls, hc, Bool.false_eq_true, if_false, Nat.zero_add]
        exact ih _

/-- C14 at a concrete input: on a handle with transaction and pool the first
`Job.Done` commits, the second records only its entry, and of three calls one
commits. -/
theorem Job.Done_idempotent_witness :
    (Job.Done Example.healthyBackend (Example.boundJob Example.linearBackoff) World.start).1
      = none ∧
    (Job.Done Example.healthyBackend (Example.boundJob Example.linearBackoff)
      World.start).2.2.trace = [.jobDone, .txCommit 1] ∧
    (Job.Done Example.healthyBackend
      (Job.Done Example.healthyBackend (Example.boundJob Example.linearBackoff)
        World.start).2.1 World.start).2.2.trace = World.start.trace ++ [.jobDone] ∧
    (Job.doneCalls Example.healthyBackend [World.start, World.start, World.start]
      (Example.boundJob Example.linearBackoff)).1 ≤ 1 ∧
    (Job.doneCalls Example.healthyBackend [World.start, World.start, World.start]
      (Example.boundJob Example.linearBackoff)).1 = 1 :=
  ⟨rfl, rfl,
    ((Job.Done_idempotent Example.healthyBackend (Example.boundJob Example.linearBackoff)
      World.start).1 rfl World.start).2,
    (Job.Done_idempotent Example.healthyBackend (Example.boundJob Example.linearBackoff)
      World.start).2 _,
    rfl⟩

/-- C15: `Job.Delete` is idempotent.  On a handle with a bound transaction that
is not marked deleted: when the `DELETE` succeeds, `Job.Delete` returns nil and
marks the handle deleted, and every later `Job.Delete`, in whatever world,
returns nil, records only its entry (it executes no statement) and leaves the
handle unchanged; when the `DELETE` fails, `Job.Delete` returns that error and
leaves the handle unchanged, not marked deleted. -/
theorem Job.Delete_idempotent (B : Backend σ) (j : Job) (w : World σ) (tx : TxId)
    (htx : j.tx = some tx) (hd : j.deleted = false) :
    (Job.Delete B j w).2.2.trace = w.trace ++ [.jobDelete, .txExec tx (.deleteJob j.ID)] ∧
    ((B.txExec tx (.deleteJob j.ID) w.st).1 = none →
      (Job.Delete B j w).1 = .returned none ∧
      (Job.Delete B j w).2.1.deleted = true ∧
      ∀ w2 : World σ,
        Job.Delete B (Job.Delete B j w).2.1 w2 =
          (.returned none, (Job.Delete B j w).2.1, w2.emit .jobDelete) ∧
        (Job.Delete B (Job.Delete B j w).2.1 w2).2.2.trace = w2.trace ++ [.jobDelete]) ∧
    (∀ err, (B.txExec tx (.deleteJob j.ID) w.st).1 = some err →
      (Job.Delete B j w).1 = .returned (some err) ∧
      (Job.Delete B j w).2.1 = j ∧
      (Job.Delete B j w).2.1.deleted = false) := by
  refine ⟨?_, ?_, ?_⟩
  · rw [Job.Delete_trace_eq]
    simp [Job.deleteEvents, hd, htx]
  · intro hok
    have h1 : Job.Delete B j w = (.returned none, { j with deleted := true },
        ((w.emit .jobDelete).call (.txExec tx (.deleteJob j.ID))
          (B.txExec tx (.deleteJob j.ID))).2) := by
      unfold Job.Delete
      simp [hd, htx, hok]
    rw [h1]
    refine ⟨rfl, rfl, fun w2 => ?_⟩
    have h2 : Job.Delete B { j with deleted := true } w2 =
        (.returned none, { j with deleted := true }, w2.emit .jobDelete) := by
      unfold Job.Delete
      simp
    exact ⟨h2, by rw [h2]; rfl⟩
  · intro err herr
    have h1 : Job.Delete B j w = (.returned (some err), j,
        ((w.emit .jobDelete).call (.txExec tx (.deleteJob j.ID))
          (B.txExec tx (.deleteJob j.ID))).2) := by
      unfold Job.Delete
      simp [hd, htx, herr]
    rw [h1]
    exact ⟨rfl, rfl, hd⟩

/-- C15 at concrete inputs: a `DELETE` that succeeds, followed by a second
`Job.Delete`; and a `DELETE` that fails. -/
theorem Job.Delete_idempotent_witness :
    (Example.boundJob Example.linearBackoff).tx = some 1 ∧
    (Example.boundJob Example.linearBackoff).deleted = false ∧
    (Job.Delete Example.healthyBackend (Example.boundJob Example.linearBackoff)
      World.start).2.1.deleted = true ∧
    (Job.Delete Example.healthyBackend
      (Job.Delete Example.healthyBackend (Example.boundJob Example.linearBackoff)
        World.start).2.1 World.start).2.2.trace = World.start.trace ++ [.jobDelete] ∧
    (Job.Delete Example.failingBackend (Example.boundJob Example.linearBackoff)
      World.start).1 = .returned (some (.other "update failed")) ∧
    (Job.Delete Example.failingBackend (Example.boundJob Example.linearBackoff)
      World.start).2.1.deleted = false :=
  ⟨rfl, rfl,
    ((Job.Delete_idempotent Example.healthyBackend (Example.boundJob Example.linearBackoff)
      World.start 1 rfl rfl).2.1 rfl).2.1,
    (((Job.Delete_idempotent Example.healthyBackend (Example.boundJob Example.linearBackoff)
      World.start 1 rfl rfl).2.1 rfl).2.2 World.start).2,
    ((Job.Delete_idempotent Example.failingBackend (Example.boundJob Example.linearBackoff)
      World.start 1 rfl rfl).2.2 (.other "update failed") rfl).1,
    ((Job.Delete_idempotent Example.failingBackend (Example.boundJob Example.linearBackoff)
      World.start 1 rfl rfl).2.2 (.other "update failed") rfl).2.2⟩

end Idempotent

/-! ## The error count -/

section ErrorCount

variable {σ : Type}

/-- C18, as the claim states it, fails: on a handle whose `ErrorCount` is the
largest `int32`, 2147483647, which is not negative, `Job.Error` writes the
`error_count` -2147483648, which is smaller and negative. -/
theorem Job.Error_error_count_wraps :
    (0 : Int) ≤ Example.maxedJob.ErrorCount ∧ Example.maxedJob.ErrorCount < 2147483648 ∧
    (Job.Error Example.healthyBackend Example.maxedJob "boom" World.start).2.2.trace =
      [.txExec 1 (.updateJob (-2147483648) ⟨63835596800000000000⟩ "boom"
          ⟨63835596800000000000⟩ ⟨1700000000000, 42⟩),
        .jobDone, .txCommit 1] ∧
    ¬ (Example.maxedJob.ErrorCount < wrapInt32 (Example.maxedJob.ErrorCount + 1)) := by
  refine ⟨by decide, by decide, rfl, by decide⟩

/-- C18, amended: for every handle whose `ErrorCount` is a non-negative
`int32` below the maximum 2147483647, the `error_count` that `Job.Error`
writes (on a bound handle whose backoff does not discard) is `ErrorCount + 1`:
strictly greater than `ErrorCount`, positive, and again an `int32`. -/
theorem Job.Error_error_count_increases (B : Backend σ) (j : Job) (msg : String)
    (w : World σ) (tx : TxId) (b : Backoff) (htx : j.tx = some tx) (hb : j.backoff = some b)
    (hpos : 0 ≤ b (wrapInt32 (j.ErrorCount + 1)))
    (hlo : 0 ≤ j.ErrorCount) (hhi : j.ErrorCount < 2147483647) :
    wrapInt32 (j.ErrorCount + 1) = j.ErrorCount + 1 ∧
    j.ErrorCount < wrapInt32 (j.ErrorCount + 1) ∧
    0 < wrapInt32 (j.ErrorCount + 1) ∧
    wrapInt32 (j.ErrorCount + 1) ≤ 2147483647 ∧
    ∃ runAt now, (Job.Error B j msg w).2.2.trace =
      w.trace ++ Event.txExec tx (.updateJob (j.ErrorCount + 1) runAt msg now j.ID) ::
        j.doneEvents := by
  have heq : wrapInt32 (j.ErrorCount + 1) = j.ErrorCount + 1 := by
    unfold wrapInt32
    omega
  have h := Job.Error_update_trace B j msg w tx b htx hb hpos
  simp only [Job.nextErrorCount, heq] at h
  exact ⟨heq, by omega, by omega, by omega, _, _, h⟩

/-- C18, amended, at a concrete input: the first failure of a bound handle
writes the `error_count` 1. -/
theorem Job.Error_error_count_increases_witness :
    (Example.boundJob Example.linearBackoff).tx = some 1 ∧
    (Example.boundJob Example.linearBackoff).backoff = some Example.linearBackoff ∧
    0 ≤ Example.linearBackoff
      (wrapInt32 ((Example.boundJob Example.linearBackoff).ErrorCount + 1)) ∧
    (0 : Int) ≤ (Example.boundJob Example.linearBackoff).ErrorCount ∧
    (Example.boundJob Example.linearBackoff).ErrorCount < 2147483647 ∧
    wrapInt32 ((Example.boundJob Example.linearBackoff).ErrorCount + 1) = 0 + 1 ∧
    (Example.boundJob Example.linearBackoff).ErrorCount <
      wrapInt32 ((Example.boundJob Example.linearBackoff).ErrorCount + 1) :=
  ⟨rfl, rfl, by decide, by decide, by decide,
    (Job.Error_error_count_increases Example.healthyBackend
      (Example.boundJob Example.linearBackoff) "boom" World.start 1 Example.linearBackoff
      rfl rfl (by decide) (by decide) (by decide)).1,
    (Job.Error_error_count_increases Example.healthyBackend
      (Example.boundJob Example.linearBackoff) "boom" World.start 1 Example.linearBackoff
      rfl rfl (by decide) (by decide) (by decide)).2.1⟩

end ErrorCount

/-! ## The libpq adapter -/

section LibpqAdapter

/-- C19, evaluated: when the driver reports `sql.ErrTxDone`, `aTx.Rollback`
returns `adapter.ErrTxClosed`, but `aTx.Commit` returns `sql.ErrTxDone` as it
is, not `adapter.ErrTxClosed`. -/
theorem Libpq.aTxCommit_passes_ErrTxDone :
    Libpq.aTxRollback (some .sqlErrTxDone) = some .ErrTxClosed ∧
    Libpq.aTxCommit (some .sqlErrTxDone) = some .sqlErrTxDone ∧
    Libpq.aTxCommit (some .sqlErrTxDone) ≠ some .ErrTxClosed := by
  refine ⟨rfl, rfl, by decide⟩

/-- What the adapter translates: `aRow.Scan` turns `sql.ErrNoRows` into
`adapter.ErrNoRows` and passes every other result through; `aTx.Rollback`
turns `sql.ErrTxDone` into `adapter.ErrTxClosed` and passes every other result
through; `aTx.Commit` passes every result through. -/
theorem Libpq.translation (driverErr : Option GoError) :
    (driverErr = some .sqlErrNoRows → Libpq.aRowScan driverErr = some .ErrNoRows) ∧
    (driverErr ≠ some .sqlErrNoRows → Libpq.aRowScan driverErr = driverErr) ∧
    (driverErr = some .sqlErrTxDone → Libpq.aTxRollback driverErr = some .ErrTxClosed) ∧
    (driverErr ≠ some .sqlErrTxDone → Libpq.aTxRollback driverErr = driverErr) ∧
    Libpq.aTxCommit driverErr = driverErr := by
  refine ⟨fun h => by simp [Libpq.aRowScan, h], fun h => by simp [Libpq.aRowScan, h],
    fun h => by simp [Libpq.aTxRollback, h], fun h => by simp [Libpq.aTxRollback, h], rfl⟩

end LibpqAdapter

/-! ## EnqueueTx -/

section EnqueueTx

variable {σ : Type}

/-- Recording a statement in a transaction of the table leaves the committed
rows as they are. -/
theorem DB.addWrite_rows (d : DB) (t : TxId) (s : Stmt) : (d.addWrite t s).rows = d.rows := by
  unfold DB.addWrite
  split <;> rfl

/-- An `INSERT` in a transaction of the table leaves the committed rows as
they are, whether it succeeds or fails. -/
theorem DB.txExec_insert_rows (d : DB) (t : TxId) (id q : String) (p : Int) (ra : Time)
    (ty : String) (a : List UInt8) (ca ua : Time) :
    (DB.txExec t (.insertJob id q p ra ty a ca ua) d).2.rows = d.rows := by
  unfold DB.txExec
  split
  · rfl
  · simp only []
    split
    · rfl
    · exact DB.addWrite_rows d t _

/-- On the table, `EnqueueTx` leaves the committed rows as they are. -/
theorem DB.EnqueueTx_rows (c : Client) (j : Job) (tx : TxId) (w : World DB) :
    (Client.EnqueueTx DB.backend c j tx w).2.2.st.rows = w.st.rows := by
  obtain ⟨hrows, -⟩ := DB.ulidNew_frame (Time.unixMilli (DB.backend.timeNow w.st).1) w
  unfold Client.EnqueueTx Client.execEnqueue
  by_cases h : j.Type_ = ""
  · simp [h]
  · simp only [h, if_false, World.read_fst]
    rcases hu : (ulidNew DB.backend (Time.unixMilli (DB.backend.timeNow w.st).1)
        (w.read DB.backend.timeNow).2).1.2 with _ | err
    · simp only [World.emit_st, World.call_st]
      rw [← hrows]
      exact DB.txExec_insert_rows _ _ _ _ _ _ _ _ _ _
    · simpa using hrows

/-- Releasing locks changes no `job_id`. -/
theorem DB.unlockAll_ids (rows : List Row) (t : TxId) :
    (DB.unlockAll rows t).map (fun r => r.job_id) = rows.map (fun r => r.job_id) := by
  unfold DB.unlockAll
  rw [List.map_map]
  apply List.map_congr_left
  intro r _
  simp only [Function.comp]
  split <;> rfl

/-- A rollback on the table changes no `job_id` of the committed rows. -/
theorem DB.txRollback_ids (t : TxId) (d : DB) :
    (DB.txRollback t d).2.rows.map (fun r => r.job_id) = d.rows.map (fun r => r.job_id) := by
  unfold DB.txRollback
  split
  · rfl
  · exact DB.unlockAll_ids d.rows t

/-- C16: `EnqueueTx` makes at most one call on the adapter, the `INSERT` on the
transaction it was given: it calls neither `Commit` nor `Rollback`, and
nothing on the pool.  On the table, the committed rows are the same after
`EnqueueTx` as before, and after a rollback of the transaction they have the
same `job_id`s as before: the job is not in the queue. -/
theorem Client.EnqueueTx_on_tx_only (B : Backend σ) (c : Client) (j : Job) (tx : TxId)
    (w : World σ) (d : World DB) :
    (∃ new, (Client.EnqueueTx B c j tx w).2.2.trace = w.trace ++ new ∧
      (new.filter Event.isAdapterCall).length ≤ 1 ∧
      (∀ e ∈ new, e.isAdapterCall = true → ∃ s, e = Event.txExec tx s ∧ e.isInsert = true) ∧
      Event.txCommit tx ∉ new ∧ Event.txRollback tx ∉ new ∧ Event.poolBegin ∉ new ∧
      ∀ s, Event.poolExec s ∉ new) ∧
    (Client.EnqueueTx DB.backend c j tx d).2.2.st.rows = d.st.rows ∧
    (DB.txRollback tx (Client.EnqueueTx DB.backend c j tx d).2.2.st).2.rows.map
      (fun r => r.job_id) = d.st.rows.map (fun r => r.job_id) := by
  refine ⟨?_, DB.EnqueueTx_rows c j tx d, ?_⟩
  · by_cases h : j.Type_ = ""
    · refine ⟨[], ?_, by simp, by simp, by simp, by simp, by simp, by simp⟩
      simp [Client.EnqueueTx, Client.execEnqueue, h]
    · obtain ⟨-, -, herr, hok⟩ := Client.execEnqueue_typed B c j (.tx tx) w h
      rcases hu : (ulidNew B (Time.unixMilli (B.timeNow w.st).1) (w.read B.timeNow).2).1.2
        with _ | err
      · obtain ⟨ok, htr⟩ := hok hu
        refine ⟨_, htr, ?_⟩
        simp [Queryable.execEvent, Event.isAdapterCall, Event.isInsert]
      · refine ⟨[], ?_, by simp, by simp, by simp, by simp, by simp, by simp⟩
        simpa using (herr err hu).1
  · rw [DB.txRollback_ids, DB.EnqueueTx_rows]

/-- C16 at a concrete input: on the empty table with transaction 0 begun,
`EnqueueTx` succeeds with the `INSERT` on transaction 0 as its only call, the
transaction sees the job, the committed table stays empty, and after the
rollback `LockJob` finds no job. -/
theorem Client.EnqueueTx_on_tx_only_witness :
    (Client.EnqueueTx DB.backend {} { Type_ := "MyJob" } 0 Example.emptyTableTx).1 = none ∧
    (Client.EnqueueTx DB.backend {} { Type_ := "MyJob" } 0 Example.emptyTableTx).2.2.trace =
      [.txExec 0 (.insertJob "01HF7YAT00000000000000001A" "" 0 ⟨63835596800000000000⟩ "MyJob" []
          ⟨63835596800000000000⟩ ⟨63835596800000000000⟩),
        .logDebug "Tried to enqueue a job", .metricEnqueue "MyJob" true] ∧
    ((Client.EnqueueTx DB.backend {} { Type_ := "MyJob" } 0 Example.emptyTableTx).2.2.st.view
      0).length = 1 ∧
    (Client.EnqueueTx DB.backend {} { Type_ := "MyJob" } 0 Example.emptyTableTx).2.2.st.rows
      = [] ∧
    (DB.txRollback 0
      (Client.EnqueueTx DB.backend {} { Type_ := "MyJob" } 0 Example.emptyTableTx).2.2.st).2.rows
      = [] ∧
    (Client.LockJob DB.backend {} ""
      { st := (DB.txRollback 0 (Client.EnqueueTx DB.backend {} { Type_ := "MyJob" } 0
          Example.emptyTableTx).2.2.st).2, trace := [] }).1.isNone = true ∧
    (Client.LockJob DB.backend {} ""
      { st := (DB.txRollback 0 (Client.EnqueueTx DB.backend {} { Type_ := "MyJob" } 0
          Example.emptyTableTx).2.2.st).2, trace := [] }).2.1 = none :=
  ⟨rfl, rfl, rfl,
    (Client.EnqueueTx_on_tx_only DB.backend {} { Type_ := "MyJob" } 0 Example.emptyTableTx
      Example.emptyTableTx).2.1,
    rfl, rfl, rfl⟩

end EnqueueTx

/-! ## Selecting the next job on the table -/

section Select

/-- The first row of a list is none only for the empty list. -/
theorem DB.first_eq_none (q : Query) (l : List Row) : DB.first q l = none ↔ l = [] := by
  cases l with
  | nil => simp [DB.first]
  | cons r rest =>
    simp only [DB.first, reduceCtorEq, iff_false]
    rcases DB.first q rest with _ | b
    · simp
    · simp only []
      split <;> simp

/-- The first row of a list is a row of the list. -/
theorem DB.first_mem (q : Query) (l : List Row) (r : Row) (h : DB.first q l = some r) :
    r ∈ l := by
  induction l generalizing r with
  | nil => simp [DB.first] at h
  | cons x rest ih =>
    simp only [DB.first] at h
    rcases hf : DB.first q rest with _ | b
    · simp only [hf, Option.some.injEq] at h
      simp [h]
    · simp only [hf] at h
      split at h
      · simp only [Option.some.injEq] at h
        subst h
        exact List.mem_cons_of_mem _ (ih b hf)
      · simp only [Option.some.injEq] at h
        simp [h]

/-- In the order of `LockJob`, no row of the list has a lower priority number
than the first. -/
theorem DB.first_lockJob_min (queue : String) (now : Time) (l : List Row) (r : Row)
    (h : DB.first (.lockJob queue now) l = some r) : ∀ r2 ∈ l, r.priority ≤ r2.priority := by
  induction l generalizing r with
  | nil => simp [DB.first] at h
  | cons x rest ih =>
    simp only [DB.first] at h
    rcases hf : DB.first (.lockJob queue now) rest with _ | b
    · simp only [hf, Option.some.injEq] at h
      have hrest : rest = [] := (DB.first_eq_none _ rest).mp hf
      subst h hrest
      simp
    · simp only [hf, DB.Before] at h
      have hb := ih b hf
      intro r2 hr2
      by_cases hlt : b.priority < x.priority
      · simp only [hlt, decide_True, if_true, Option.some.injEq] at h
        subst h
        rcases List.mem_cons.mp hr2 with rfl | hm
        · exact le_of_lt hlt
        · exact hb r2 hm
      · simp only [hlt, decide_False, Bool.false_eq_true, if_false, Option.some.injEq] at h
        subst h
        rcases List.mem_cons.mp hr2 with rfl | hm
        · exact le_refl _
        · exact le_trans (not_lt.mp hlt) (hb r2 hm)

/-- A select in a transaction just begun on the table: it sees the committed
rows. -/
theorem DB.txQueryRow_fresh (d : DB) (q : Query) :
    DB.txQueryRow d.txs.length q (DB.poolBegin d).2 =
      match DB.first q (d.rows.filter
          (fun r => (r.lockedBy.isNone || r.lockedBy == some d.txs.length) && DB.Matches q r)) with
      | none => (.error .ErrNoRows, (DB.poolBegin d).2)
      | some r => (.ok (DB.toScanRow r),
          { (DB.poolBegin d).2 with rows := DB.lockRow d.rows r.job_id d.txs.length }) := by
  have hopen : (DB.poolBegin d).2.isOpenTx d.txs.length = true := by
    simp [DB.poolBegin, DB.isOpenTx]
  have hview : (DB.poolBegin d).2.view d.txs.length = d.rows := by
    simp [DB.poolBegin, DB.view]
  unfold DB.txQueryRow
  simp only [hopen, Bool.not_true, Bool.false_eq_true, if_false, hview]
  rfl

/-- On the table, a lock operation whose select finds the row `r`: it returns
a job with the columns of `r`, bound to the transaction just begun, and leaves
the row locked by that transaction; the error is nil when the `job_id` is the
text of an id. -/
theorem DB.execLockJob_found (c : Client) (flag : Bool) (q : Query) (w : World DB) (r : Row)
    (h : DB.first q (w.st.rows.filter
      (fun r => (r.lockedBy.isNone || r.lockedBy == some w.st.txs.length) && DB.Matches q r))
      = some r) :
    ∃ k, (Client.execLockJob DB.backend c flag q w).1 = some k ∧
      k.Queue = r.queue ∧ k.Priority = r.priority ∧ k.RunAt = r.run_at ∧
      k.Type_ = r.job_type ∧ k.Args = some r.args ∧ k.ErrorCount = r.error_count ∧
      k.LastError = r.last_error ∧ k.tx = some w.st.txs.length ∧ k.backoff = c.backoff ∧
      k.pool = none ∧ k.deleted = false ∧
      (Client.execLockJob DB.backend c flag q w).2.2.st =
        { (DB.poolBegin w.st).2 with rows := DB.lockRow w.st.rows r.job_id w.st.txs.length } ∧
      ∀ id, ULID.UnmarshalText r.job_id = .ok id →
        k.ID = id ∧ (Client.execLockJob DB.backend c flag q w).2.1 = none := by
  have hq : DB.backend.txQueryRow w.st.txs.length q (DB.backend.poolBegin w.st).2 =
      (.ok (DB.toScanRow r),
        { (DB.poolBegin w.st).2 with
          rows := DB.lockRow w.st.rows r.job_id w.st.txs.length }) := by
    have := DB.txQueryRow_fresh w.st q
    rw [h] at this
    exact this
  have hb : (DB.backend.poolBegin w.st).1 = .ok w.st.txs.length := rfl
  have hst : (DB.backend.txQueryRow w.st.txs.length q (DB.backend.poolBegin w.st).2).2 =
      { (DB.poolBegin w.st).2 with
        rows := DB.lockRow w.st.rows r.job_id w.st.txs.length } := by
    rw [hq]
  unfold Client.execLockJob
  simp only [World.call_fst, World.call_st]
  rw [hb]
  simp only []
  rw [hq]
  simp only []
  rcases hu : ULID.UnmarshalText (DB.toScanRow r).jID with e | id
  · refine ⟨_, rfl, rfl, rfl, rfl, rfl, rfl, rfl, rfl, rfl, rfl, rfl, rfl, hst, ?_⟩
    intro id2 h2
    have hu2 : ULID.UnmarshalText r.job_id = .error e := hu
    rw [hu2] at h2
    cases h2
  · refine ⟨_, rfl, rfl, rfl, rfl, rfl, rfl, rfl, rfl, rfl, rfl, rfl, rfl, hst, ?_⟩
    intro id2 h2
    have hu2 : ULID.UnmarshalText r.job_id = .ok id := hu
    rw [hu2] at h2
    cases h2
    exact ⟨rfl, rfl⟩

/-- On the table, a lock operation that handles `ErrNoRows` and whose select
finds no row returns `(nil, nil)` after the rollback. -/
theorem DB.execLockJob_empty (c : Client) (q : Query) (w : World DB)
    (h : DB.first q (w.st.rows.filter
      (fun r => (r.lockedBy.isNone || r.lockedBy == some w.st.txs.length) && DB.Matches q r))
      = none) :
    (Client.execLockJob DB.backend c true q w).1 = none ∧
    (Client.execLockJob DB.backend c true q w).2.1 = none ∧
    (Client.execLockJob DB.backend c true q w).2.2.trace = w.trace ++
      [.poolBegin, .txQueryRow w.st.txs.length q, .txRollback w.st.txs.length] := by
  have hq : DB.backend.txQueryRow w.st.txs.length q (DB.backend.poolBegin w.st).2 =
      (.error .ErrNoRows, (DB.poolBegin w.st).2) := by
    have := DB.txQueryRow_fresh w.st q
    rw [h] at this
    exact this
  have hb : (DB.backend.poolBegin w.st).1 = .ok w.st.txs.length := rfl
  have hs := Client.execLockJob_scan_error DB.backend c true q w w.st.txs.length .ErrNoRows hb
    (by rw [hq])
  rw [hs]
  refine ⟨rfl, ?_, rfl⟩
  simp only [Bool.and_self, beq_self_eq_true, if_true]
  rw [hq]
  have hopen : (DB.poolBegin w.st).2.isOpenTx w.st.txs.length = true := by
    simp [DB.poolBegin, DB.isOpenTx]
  simp [DB.backend, DB.txRollback, hopen]

/-- C12: over the table, with `tx` the transaction `LockJob` begins and `now`
the clock reading, call a row eligible when it is of the queue, its `run_at` is
not after `now`, and it is not locked by another transaction.  `LockJob`
returns no job exactly when no committed row is eligible, and then also no
error; and a job it returns has the columns of a committed row that is
eligible (of the queue, not scheduled in the future, not locked by another
transaction) and whose priority number is minimal among the eligible rows. -/
theorem Client.LockJob_priority (c : Client) (queue : String) (w : World DB) :
    ((Client.LockJob DB.backend c queue w).1 = none ↔
      ∀ r ∈ w.st.rows, ¬ (r.queue = queue ∧ r.run_at.ns ≤ (Time.ofUnixNano w.st.clock).ns ∧
        ∀ t, r.lockedBy = some t → t = w.st.txs.length)) ∧
    ((Client.LockJob DB.backend c queue w).1 = none →
      (Client.LockJob DB.backend c queue w).2.1 = none) ∧
    ∀ k, (Client.LockJob DB.backend c queue w).1 = some k →
      ∃ r ∈ w.st.rows,
        r.queue = queue ∧ r.run_at.ns ≤ (Time.ofUnixNano w.st.clock).ns ∧
        (∀ t, r.lockedBy = some t → t = w.st.txs.length) ∧
        (∀ r2 ∈ w.st.rows, r2.queue = queue →
          r2.run_at.ns ≤ (Time.ofUnixNano w.st.clock).ns →
          (∀ t, r2.lockedBy = some t → t = w.st.txs.length) → r.priority ≤ r2.priority) ∧
        k.Queue = r.queue ∧ k.Priority = r.priority ∧ k.RunAt = r.run_at ∧
        k.Type_ = r.job_type ∧ k.Args = some r.args ∧ k.ErrorCount = r.error_count ∧
        k.LastError = r.last_error := by
  have hdef : Client.LockJob DB.backend c queue w =
      Client.execLockJob DB.backend c true (.lockJob queue (Time.ofUnixNano w.st.clock)) w := rfl
  rw [hdef]
  have hfilter : ∀ r : Row,
      ((r.lockedBy.isNone || r.lockedBy == some w.st.txs.length) &&
        DB.Matches (.lockJob queue (Time.ofUnixNano w.st.clock)) r) = true ↔
      (r.queue = queue ∧ r.run_at.ns ≤ (Time.ofUnixNano w.st.clock).ns ∧
        ∀ t, r.lockedBy = some t → t = w.st.txs.length) := by
    intro r
    rcases hl : r.lockedBy with _ | t <;> simp [DB.Matches]
    · tauto
  rcases hf : DB.first (.lockJob queue (Time.ofUnixNano w.st.clock)) (w.st.rows.filter
      (fun r => (r.lockedBy.isNone || r.lockedBy == some w.st.txs.length) &&
        DB.Matches (.lockJob queue (Time.ofUnixNano w.st.clock)) r)) with _ | r
  · obtain ⟨h1, h2, -⟩ := DB.execLockJob_empty c _ w hf
    have hnil := (DB.first_eq_none _ _).mp hf
    rw [List.filter_eq_nil_iff] at hnil
    refine ⟨⟨fun _ r hr hel => hnil r hr ((hfilter r).mpr hel), fun _ => h1⟩, fun _ => h2, ?_⟩
    intro k hk
    rw [h1] at hk
    cases hk
  · obtain ⟨k, hk, g1, g2, g3, g4, g5, g6, g7, -⟩ := DB.execLockJob_found c true _ w r hf
    have hmem := DB.first_mem _ _ r hf
    rw [List.mem_filter] at hmem
    have hel := (hfilter r).mp hmem.2
    refine ⟨⟨fun h => ?_, fun h => ?_⟩, fun h => ?_, ?_⟩
    · rw [hk] at h
      cases h
    · exact absurd hel (h r hmem.1)
    · rw [hk] at h
      cases h
    · intro k2 hk2
      rw [hk] at hk2
      cases hk2
      refine ⟨r, hmem.1, hel.1, hel.2.1, hel.2.2, ?_, g1, g2, g3, g4, g5, g6, g7⟩
      intro r2 hr2 hq2 hra hlk
      exact DB.first_lockJob_min _ _ _ r hf r2
        (List.mem_filter.mpr ⟨hr2, (hfilter r2).mpr ⟨hq2, hra, hlk⟩⟩)

/-- C12 at a concrete input: of three jobs with the priorities 10, -5 and 0,
`LockJob` returns the one with -5, and then, that row being locked, the one
with 0, then the one with 10, then none. -/
theorem Client.LockJob_priority_witness :
    (∃ k, (Client.LockJob DB.backend {} "" Example.threeJobs).1 = some k ∧ k.Priority = -5 ∧
      ∃ r ∈ Example.threeJobs.st.rows, r.priority = -5 ∧
        ∀ r2 ∈ Example.threeJobs.st.rows, r2.queue = "" →
          r2.run_at.ns ≤ (Time.ofUnixNano Example.threeJobs.st.clock).ns →
          (∀ t, r2.lockedBy = some t → t = Example.threeJobs.st.txs.length) →
          r.priority ≤ r2.priority) ∧
    (Client.LockJob DB.backend {} ""
      (Client.LockJob DB.backend {} "" Example.threeJobs).2.2).1.map (fun k => k.Priority)
      = some 0 ∧
    (Client.LockJob DB.backend {} "" (Client.LockJob DB.backend {} ""
      (Client.LockJob DB.backend {} "" Example.threeJobs).2.2).2.2).1.map (fun k => k.Priority)
      = some 10 ∧
    (Client.LockJob DB.backend {} "" (Client.LockJob DB.backend {} ""
      (Client.LockJob DB.backend {} "" (Client.LockJob DB.backend {} ""
        Example.threeJobs).2.2).2.2).2.2).1.isNone = true := by
  refine ⟨?_, rfl, rfl, rfl⟩
  obtain ⟨r, hr, -, -, -, hmin, -, hp, -⟩ :=
    (Client.LockJob_priority {} "" Example.threeJobs).2.2 _ rfl
  refine ⟨_, rfl, rfl, r, hr, ?_, hmin⟩
  rw [← hp]
  rfl

end Select

/-! ## The order of the ids -/

section IdOrder

/-- Between well-formed ULIDs, the order by timestamp and entropy is the order
of their numbers. -/
theorem ULID.lt_iff_toNat (a b : ULID) (ha : a.entropy < 1208925819614629174706176)
    (hb : b.entropy < 1208925819614629174706176) : ULID.lt a b ↔ a.toNat < b.toNat := by
  rcases a with ⟨am, ae⟩
  rcases b with ⟨bm, be⟩
  simp only [ULID.lt, ULID.toNat] at *
  constructor
  · rintro (h | ⟨h1, h2⟩) <;> omega
  · intro h
    by_cases hm : am < bm
    · exact Or.inl hm
    · right
      constructor <;> omega

/-- What a read of the entropy source of the table does to it. -/
theorem DB.entropyRead_gen (ms : Nat) (d : DB) (hms : d.lastMs ≤ ms)
    (he : d.lastEntropy < 1208925819614629174706176) :
    (DB.entropyRead ms d).2.clock = d.clock ∧
    (DB.entropyRead ms d).2.lastMs ≤ ms ∧
    (DB.entropyRead ms d).2.lastEntropy < 1208925819614629174706176 ∧
    d.lastID.toNat ≤ (DB.entropyRead ms d).2.lastID.toNat ∧
    ((DB.entropyRead ms d).1.1 = none →
      (DB.entropyRead ms d).2.lastMs = ms ∧
      (DB.entropyRead ms d).2.lastEntropy = (DB.entropyRead ms d).1.2 ∧
      d.lastID.toNat < (DB.entropyRead ms d).2.lastID.toNat) := by
  unfold DB.entropyRead
  rcases hr : d.random with _ | ⟨r, rest⟩
  · simp [hms, he]
  · simp only []
    by_cases hsame : d.lastMs = ms
    · rw [if_pos hsame]
      by_cases hov : d.lastEntropy + (1 + r % 4294967295) ≥ 1208925819614629174706176
      · rw [if_pos hov]
        refine ⟨rfl, le_of_eq hsame, he, le_refl _, ?_⟩
        intro h
        cases h
      · rw [if_neg hov]
        refine ⟨rfl, le_of_eq hsame, not_le.mp hov, ?_, fun _ => ⟨hsame, rfl, ?_⟩⟩
        · simp only [DB.lastID, ULID.toNat]
          omega
        · simp only [DB.lastID, ULID.toNat]
          omega
    · rw [if_neg hsame]
      have hlt : d.lastMs < ms := lt_of_le_of_ne hms hsame
      have hmod : r % 1208925819614629174706176 < 1208925819614629174706176 :=
        Nat.mod_lt _ (by decide)
      have hmul : (d.lastMs + 1) * 1208925819614629174706176 ≤
          ms * 1208925819614629174706176 := Nat.mul_le_mul_right _ hlt
      refine ⟨rfl, le_refl _, hmod, ?_, fun _ => ⟨rfl, rfl, ?_⟩⟩
      · simp only [DB.lastID, ULID.toNat]
        omega
      · simp only [DB.lastID, ULID.toNat]
        omega

/-- Recording a statement touches neither the clock nor the entropy source. -/
theorem DB.addWrite_gen (d : DB) (t : TxId) (s : Stmt) :
    (d.addWrite t s).clock = d.clock ∧ (d.addWrite t s).lastMs = d.lastMs ∧
    (d.addWrite t s).lastEntropy = d.lastEntropy := by
  unfold DB.addWrite
  split <;> exact ⟨rfl, rfl, rfl⟩

/-- No call on the adapter of the table touches the clock or the entropy
source. -/
theorem DB.adapter_gen (d : DB) :
    (∀ s, (DB.poolExec s d).2.clock = d.clock ∧ (DB.poolExec s d).2.lastMs = d.lastMs ∧
      (DB.poolExec s d).2.lastEntropy = d.lastEntropy) ∧
    ((DB.poolBegin d).2.clock = d.clock ∧ (DB.poolBegin d).2.lastMs = d.lastMs ∧
      (DB.poolBegin d).2.lastEntropy = d.lastEntropy) ∧
    (∀ t s, (DB.txExec t s d).2.clock = d.clock ∧ (DB.txExec t s d).2.lastMs = d.lastMs ∧
      (DB.txExec t s d).2.lastEntropy = d.lastEntropy) ∧
    (∀ t q, (DB.txQueryRow t q d).2.clock = d.clock ∧ (DB.txQueryRow t q d).2.lastMs = d.lastMs ∧
      (DB.txQueryRow t q d).2.lastEntropy = d.lastEntropy) ∧
    (∀ t, (DB.txCommit t d).2.clock = d.clock ∧ (DB.txCommit t d).2.lastMs = d.lastMs ∧
      (DB.txCommit t d).2.lastEntropy = d.lastEntropy) ∧
    (∀ t, (DB.txRollback t d).2.clock = d.clock ∧ (DB.txRollback t d).2.lastMs = d.lastMs ∧
      (DB.txRollback t d).2.lastEntropy = d.lastEntropy) := by
  refine ⟨?_, ⟨rfl, rfl, rfl⟩, ?_, ?_, ?_, ?_⟩
  · intro s
    unfold DB.poolExec
    cases s <;> simp only [] <;> split <;> exact ⟨rfl, rfl, rfl⟩
  · intro t s
    unfold DB.txExec
    split
    · exact ⟨rfl, rfl, rfl⟩
    · cases s <;> simp only [] <;> split
      · exact ⟨rfl, rfl, rfl⟩
      · exact DB.addWrite_gen _ _ _
      · exact ⟨rfl, rfl, rfl⟩
      · exact DB.addWrite_gen _ _ _
      · exact ⟨rfl, rfl, rfl⟩
      · exact DB.addWrite_gen _ _ _
  · intro t q
    unfold DB.txQueryRow
    split
    · exact ⟨rfl, rfl, rfl⟩
    · split <;> exact ⟨rfl, rfl, rfl⟩
  · intro t
    unfold DB.txCommit
    split <;> exact ⟨rfl, rfl, rfl⟩
  · intro t
    unfold DB.txRollback
    split <;> exact ⟨rfl, rfl, rfl⟩

/-- What the generation of an id does to the entropy source of the table, when
the source is in order: it stays in order, the last id it produced does not
decrease, and an id generated without error is the last id produced, greater
than the one before. -/
theorem DB.ulidNew_gen (w : World DB) (h : DB.genOK w.st) :
    (ulidNew DB.backend (Time.unixMilli w.st.clock) w).2.st.clock = w.st.clock ∧
    DB.genOK (ulidNew DB.backend (Time.unixMilli w.st.clock) w).2.st ∧
    w.st.lastID.toNat ≤ (ulidNew DB.backend (Time.unixMilli w.st.clock) w).2.st.lastID.toNat ∧
    ((ulidNew DB.backend (Time.unixMilli w.st.clock) w).1.2 = none →
      (ulidNew DB.backend (Time.unixMilli w.st.clock) w).1.1 =
        (ulidNew DB.backend (Time.unixMilli w.st.clock) w).2.st.lastID ∧
      w.st.lastID.toNat < (ulidNew DB.backend (Time.unixMilli w.st.clock) w).1.1.toNat) := by
  unfold ulidNew
  by_cases hbig : Time.unixMilli w.st.clock > ULID.MaxTime
  · rw [if_pos hbig]
    refine ⟨rfl, h, le_refl _, fun hn => ?_⟩
    cases hn
  · rw [if_neg hbig]
    obtain ⟨h1, h2, h3, h4, h5⟩ := DB.entropyRead_gen (Time.unixMilli w.st.clock) w.st h.1 h.2
    refine ⟨h1, ⟨?_, h3⟩, h4, fun hn => ?_⟩
    · show (DB.entropyRead (Time.unixMilli w.st.clock) w.st).2.lastMs ≤
        Time.unixMilli (DB.entropyRead (Time.unixMilli w.st.clock) w.st).2.clock
      rw [h1]
      exact h2
    · obtain ⟨g1, g2, g3⟩ := h5 hn
      have hid : (⟨Time.unixMilli w.st.clock,
          (DB.entropyRead (Time.unixMilli w.st.clock) w.st).1.2 % 1208925819614629174706176⟩
          : ULID) = (DB.entropyRead (Time.unixMilli w.st.clock) w.st).2.lastID := by
        simp only [DB.lastID, g1, ← g2, Nat.mod_eq_of_lt h3]
      refine ⟨hid, ?_⟩
      show w.st.lastID.toNat < (ULID.mk (Time.unixMilli w.st.clock)
        ((DB.entropyRead (Time.unixMilli w.st.clock) w.st).1.2
          % 1208925819614629174706176)).toNat
      rw [hid]
      exact g3

/-- A state with the same clock and entropy source is in order when the other
is, and has produced the same last id. -/
theorem DB.genOK_congr (d e : DB) (h : e.clock = d.clock ∧ e.lastMs = d.lastMs ∧
    e.lastEntropy = d.lastEntropy) : (DB.genOK d → DB.genOK e) ∧ e.lastID = d.lastID := by
  obtain ⟨h1, h2, h3⟩ := h
  unfold DB.genOK DB.lastID
  rw [h1, h2, h3]
  exact ⟨id, rfl⟩

/-- The state `execEnqueue` ends in, for a job with a type: that of the one
statement it runs when the id was generated, that of the id generation
otherwise. -/
theorem Client.execEnqueue_st {σ : Type} (B : Backend σ) (c : Client) (j : Job)
    (q : Queryable) (w : World σ) (ht : j.Type_ ≠ "") :
    (Client.execEnqueue B c j q w).2.1.ID =
      (ulidNew B (Time.unixMilli (B.timeNow w.st).1) (w.read B.timeNow).2).1.1 ∧
    ((ulidNew B (Time.unixMilli (B.timeNow w.st).1) (w.read B.timeNow).2).1.2 = none →
      ∃ s, (Client.execEnqueue B c j q w).2.2.st =
        match q with
        | .pool => (B.poolExec s
            (ulidNew B (Time.unixMilli (B.timeNow w.st).1) (w.read B.timeNow).2).2.st).2
        | .tx t => (B.txExec t s
            (ulidNew B (Time.unixMilli (B.timeNow w.st).1) (w.read B.timeNow).2).2.st).2) ∧
    (∀ err, (ulidNew B (Time.unixMilli (B.timeNow w.st).1) (w.read B.timeNow).2).1.2
        = some err →
      (Client.execEnqueue B c j q w).1 = some (.errorfNewID err) ∧
      (Client.execEnqueue B c j q w).2.2.st =
        (ulidNew B (Time.unixMilli (B.timeNow w.st).1) (w.read B.timeNow).2).2.st) := by
  unfold Client.execEnqueue
  simp only [ht, if_false, World.read_fst]
  rcases hu : (ulidNew B (Time.unixMilli (B.timeNow w.st).1) (w.read B.timeNow).2).1.2
    with _ | err
  · refine ⟨rfl, fun _ => ?_, fun err h => ?_⟩
    · cases q <;> exact ⟨_, rfl⟩
    · cases h
  · refine ⟨rfl, fun h => ?_, fun err2 h => ?_⟩
    · cases h
    · cases h
      exact ⟨rfl, rfl⟩

/-- What `execEnqueue` does to the entropy source of the table. -/
theorem DB.execEnqueue_gen (c : Client) (j : Job) (q : Queryable) (w : World DB)
    (h : DB.genOK w.st) :
    DB.genOK (Client.execEnqueue DB.backend c j q w).2.2.st ∧
    w.st.lastID.toNat ≤ (Client.execEnqueue DB.backend c j q w).2.2.st.lastID.toNat ∧
    ((Client.execEnqueue DB.backend c j q w).1 = none →
      (Client.execEnqueue DB.backend c j q w).2.1.ID =
        (Client.execEnqueue DB.backend c j q w).2.2.st.lastID ∧
      w.st.lastID.toNat < (Client.execEnqueue DB.backend c j q w).2.1.ID.toNat) := by
  by_cases ht : j.Type_ = ""
  · have : Client.execEnqueue DB.backend c j q w = (some .ErrMissingType, j, w) := by
      simp [Client.execEnqueue, ht]
    rw [this]
    refine ⟨h, le_refl _, fun hn => ?_⟩
    cases hn
  · obtain ⟨-, u2, u3, u4⟩ := DB.ulidNew_gen w h
    obtain ⟨hid, hok, herr⟩ := Client.execEnqueue_st DB.backend c j q w ht
    have hw : ulidNew DB.backend (Time.unixMilli (DB.backend.timeNow w.st).1)
        (w.read DB.backend.timeNow).2 = ulidNew DB.backend (Time.unixMilli w.st.clock) w := rfl
    rw [hw] at hid hok herr
    rcases hu : (ulidNew DB.backend (Time.unixMilli w.st.clock) w).1.2 with _ | err
    · obtain ⟨u5, u6⟩ := u4 hu
      obtain ⟨stmt, hst⟩ := hok hu
      have hframe : (Client.execEnqueue DB.backend c j q w).2.2.st.clock =
            (ulidNew DB.backend (Time.unixMilli w.st.clock) w).2.st.clock ∧
          (Client.execEnqueue DB.backend c j q w).2.2.st.lastMs =
            (ulidNew DB.backend (Time.unixMilli w.st.clock) w).2.st.lastMs ∧
          (Client.execEnqueue DB.backend c j q w).2.2.st.lastEntropy =
            (ulidNew DB.backend (Time.unixMilli w.st.clock) w).2.st.lastEntropy := by
        rw [hst]
        cases q with
        | pool => exact (DB.adapter_gen _).1 stmt
        | tx t => exact (DB.adapter_gen _).2.2.1 t stmt
      obtain ⟨g1, g2⟩ := DB.genOK_congr _ _ hframe
      refine ⟨g1 u2, ?_, fun _ => ⟨?_, ?_⟩⟩
      · rw [g2]
        exact u3
      · rw [g2, hid]
        exact u5
      · rw [hid]
        exact u6
    · obtain ⟨e1, e2⟩ := herr err hu
      rw [e2]
      refine ⟨u2, u3, fun hn => ?_⟩
      rw [e1] at hn
      cases hn

/-- A read of the entropy source of the table that succeeds leaves the source
in order, whatever it was before, with the entropy read as the last one. -/
theorem DB.entropyRead_ok (ms : Nat) (d : DB) (h : (DB.entropyRead ms d).1.1 = none) :
    (DB.entropyRead ms d).2.clock = d.clock ∧
    (DB.entropyRead ms d).2.lastMs = ms ∧
    (DB.entropyRead ms d).2.lastEntropy = (DB.entropyRead ms d).1.2 ∧
    (DB.entropyRead ms d).1.2 < 1208925819614629174706176 := by
  unfold DB.entropyRead at h ⊢
  rcases hr : d.random with _ | ⟨r, rest⟩
  · rw [hr] at h
    simp at h
  · rw [hr] at h
    simp only [] at h ⊢
    by_cases hsame : d.lastMs = ms
    · rw [if_pos hsame] at h ⊢
      by_cases hov : d.lastEntropy + (1 + r % 4294967295) ≥ 1208925819614629174706176
      · rw [if_pos hov] at h
        cases h
      · rw [if_neg hov]
        exact ⟨rfl, hsame, rfl, not_le.mp hov⟩
    · rw [if_neg hsame]
      exact ⟨rfl, rfl, rfl, Nat.mod_lt _ (by decide)⟩

/-- A call of `execEnqueue` on the table that returns nil leaves the entropy
source in order, whatever it was before, and the id it assigned is the last id
the source produced. -/
theorem DB.execEnqueue_ok (c : Client) (j : Job) (q : Queryable) (w : World DB)
    (h : (Client.execEnqueue DB.backend c j q w).1 = none) :
    DB.genOK (Client.execEnqueue DB.backend c j q w).2.2.st ∧
    (Client.execEnqueue DB.backend c j q w).2.1.ID =
      (Client.execEnqueue DB.backend c j q w).2.2.st.lastID := by
  by_cases ht : j.Type_ = ""
  · have : Client.execEnqueue DB.backend c j q w = (some .ErrMissingType, j, w) := by
      simp [Client.execEnqueue, ht]
    rw [this] at h
    cases h
  · obtain ⟨hid, hok, herr⟩ := Client.execEnqueue_st DB.backend c j q w ht
    have hw : ulidNew DB.backend (Time.unixMilli (DB.backend.timeNow w.st).1)
        (w.read DB.backend.timeNow).2 = ulidNew DB.backend (Time.unixMilli w.st.clock) w := rfl
    rw [hw] at hid hok herr
    rcases hu : (ulidNew DB.backend (Time.unixMilli w.st.clock) w).1.2 with _ | err
    · obtain ⟨stmt, hst⟩ := hok hu
      have hbig : ¬ Time.unixMilli w.st.clock > ULID.MaxTime := by
        intro hbig
        unfold ulidNew at hu
        rw [if_pos hbig] at hu
        cases hu
      have hnew : ulidNew DB.backend (Time.unixMilli w.st.clock) w =
          ((⟨Time.unixMilli w.st.clock,
              (DB.entropyRead (Time.unixMilli w.st.clock) w.st).1.2
                % 1208925819614629174706176⟩,
            (DB.entropyRead (Time.unixMilli w.st.clock) w.st).1.1),
            (w.read (DB.entropyRead (Time.unixMilli w.st.clock))).2) := by
        unfold ulidNew
        rw [if_neg hbig]
        rfl
      rw [hnew] at hu hid hst
      obtain ⟨r1, r2, r3, r4⟩ := DB.entropyRead_ok (Time.unixMilli w.st.clock) w.st hu
      have hframe : (Client.execEnqueue DB.backend c j q w).2.2.st.clock =
            (DB.entropyRead (Time.unixMilli w.st.clock) w.st).2.clock ∧
          (Client.execEnqueue DB.backend c j q w).2.2.st.lastMs =
            (DB.entropyRead (Time.unixMilli w.st.clock) w.st).2.lastMs ∧
          (Client.execEnqueue DB.backend c j q w).2.2.st.lastEntropy =
            (DB.entropyRead (Time.unixMilli w.st.clock) w.st).2.lastEntropy := by
        rw [hst]
        cases q with
        | pool => exact (DB.adapter_gen _).1 stmt
        | tx t => exact (DB.adapter_gen _).2.2.1 t stmt
      obtain ⟨f1, f2, f3⟩ := hframe
      refine ⟨⟨?_, ?_⟩, ?_⟩
      · rw [f1, f2, r1, r2]
      · rw [f3, r3]
        exact r4
      · rw [hid]
        simp only [DB.lastID, f2, f3, r2, r3, Nat.mod_eq_of_lt r4]
    · obtain ⟨e1, -⟩ := herr err hu
      rw [e1] at h
      cases h

/-- A step on the table that does not set the wall clock back keeps the
entropy source in order and does not decrease the last id it produced. -/
theorem DB.step_gen (w : World DB) (op : Op) (h : DB.genOK w.st)
    (hf : w.st.clock ≤ (DB.step w op).st.clock) :
    DB.genOK (DB.step w op).st ∧ w.st.lastID.toNat ≤ (DB.step w op).st.lastID.toNat := by
  cases op with
  | setClock t =>
    refine ⟨⟨?_, h.2⟩, le_refl _⟩
    exact le_trans h.1 (Nat.div_le_div_right hf)
  | enqueue c j q =>
    exact ⟨(DB.execEnqueue_gen c j q w h).1, (DB.execEnqueue_gen c j q w h).2.1⟩
  | poolExec s =>
    obtain ⟨g1, g2⟩ := DB.genOK_congr w.st (DB.step w (.poolExec s)).st ((DB.adapter_gen w.st).1 s)
    exact ⟨g1 h, le_of_eq (congrArg ULID.toNat g2.symm)⟩
  | poolBegin =>
    obtain ⟨g1, g2⟩ := DB.genOK_congr w.st (DB.step w .poolBegin).st (DB.adapter_gen w.st).2.1
    exact ⟨g1 h, le_of_eq (congrArg ULID.toNat g2.symm)⟩
  | txExec t s =>
    obtain ⟨g1, g2⟩ := DB.genOK_congr w.st (DB.step w (.txExec t s)).st
      ((DB.adapter_gen w.st).2.2.1 t s)
    exact ⟨g1 h, le_of_eq (congrArg ULID.toNat g2.symm)⟩
  | txQueryRow t q =>
    obtain ⟨g1, g2⟩ := DB.genOK_congr w.st (DB.step w (.txQueryRow t q)).st
      ((DB.adapter_gen w.st).2.2.2.1 t q)
    exact ⟨g1 h, le_of_eq (congrArg ULID.toNat g2.symm)⟩
  | txCommit t =>
    obtain ⟨g1, g2⟩ := DB.genOK_congr w.st (DB.step w (.txCommit t)).st
      ((DB.adapter_gen w.st).2.2.2.2.1 t)
    exact ⟨g1 h, le_of_eq (congrArg ULID.toNat g2.symm)⟩
  | txRollback t =>
    obtain ⟨g1, g2⟩ := DB.genOK_congr w.st (DB.step w (.txRollback t)).st
      ((DB.adapter_gen w.st).2.2.2.2.2 t)
    exact ⟨g1 h, le_of_eq (congrArg ULID.toNat g2.symm)⟩

/-- A run on the table in which the wall clock does not step back keeps the
entropy source in order and does not decrease the last id it produced. -/
theorem DB.run_gen (ops : List Op) (w : World DB) (h : DB.genOK w.st)
    (hf : DB.clockForward ops w = true) :
    DB.genOK (DB.run ops w).st ∧ w.st.lastID.toNat ≤ (DB.run ops w).st.lastID.toNat := by
  induction ops generalizing w with
  | nil => exact ⟨h, le_refl _⟩
  | cons op ops ih =>
    simp only [DB.clockForward, Bool.and_eq_true, decide_eq_true_eq] at hf
    obtain ⟨s1, s2⟩ := DB.step_gen w op h hf.1
    obtain ⟨r1, r2⟩ := ih (DB.step w op) s1 hf.2
    exact ⟨r1, le_trans s2 r2⟩

/-- The entropy source of a new client is in order. -/
theorem DB.newClient_genOK (d : DB) : DB.genOK (DB.newClient d) := by
  simp [DB.genOK, DB.newClient]

/-- C17, as the claim states it, fails when the wall clock is set back
between the calls.  On the empty table a job is enqueued and gets the id with
the timestamp 1700000000000 and the entropy 42; the clock then reads two
milliseconds earlier, and the same client enqueues a second job: it gets the
timestamp 1699999999998 with fresh entropy, an id that sorts before the id of
the earlier call. -/
theorem Client.Enqueue_clock_set_back :
    (Client.Enqueue DB.backend {} { Type_ := "MyJob" }
      { st := DB.newClient DB.init, trace := [] }).1 = none ∧
    (Client.Enqueue DB.backend {} { Type_ := "MyJob" }
      { st := DB.newClient DB.init, trace := [] }).2.1.ID = ⟨1700000000000, 42⟩ ∧
    (Client.Enqueue DB.backend {} { Type_ := "MyJob" }
      (DB.run [.setClock 1699999999998000000]
        (Client.Enqueue DB.backend {} { Type_ := "MyJob" }
          { st := DB.newClient DB.init, trace := [] }).2.2)).1 = none ∧
    (Client.Enqueue DB.backend {} { Type_ := "MyJob" }
      (DB.run [.setClock 1699999999998000000]
        (Client.Enqueue DB.backend {} { Type_ := "MyJob" }
          { st := DB.newClient DB.init, trace := [] }).2.2)).2.1.ID = ⟨1699999999998, 7⟩ ∧
    ¬ ULID.lt
      (Client.Enqueue DB.backend {} { Type_ := "MyJob" }
        { st := DB.newClient DB.init, trace := [] }).2.1.ID
      (Client.Enqueue DB.backend {} { Type_ := "MyJob" }
        (DB.run [.setClock 1699999999998000000]
          (Client.Enqueue DB.backend {} { Type_ := "MyJob" }
            { st := DB.newClient DB.init, trace := [] }).2.2)).2.1.ID ∧
    ULID.lt
      (Client.Enqueue DB.backend {} { Type_ := "MyJob" }
        (DB.run [.setClock 1699999999998000000]
          (Client.Enqueue DB.backend {} { Type_ := "MyJob" }
            { st := DB.newClient DB.init, trace := [] }).2.2)).2.1.ID
      (Client.Enqueue DB.backend {} { Type_ := "MyJob" }
        { st := DB.newClient DB.init, trace := [] }).2.1.ID := by
  refine ⟨rfl, rfl, rfl, rfl, ?_, ?_⟩ <;> decide

/-- C17, amended: over the table, start from any database with the entropy
source of a new client, and take any two calls of `Enqueue` or `EnqueueTx` that
return nil, with any run before the first and, between them, any run in which
the wall clock does not step back (time passing, other enqueues, calls on the
adapter).  The id the later call assigned sorts strictly after the id the
earlier call assigned, by timestamp and then by entropy, and as a number; when
both have the same millisecond, the entropy of the later one is greater. -/
theorem Client.Enqueue_ids_increase (d : DB) (tr : List Event) (ops0 ops1 : List Op)
    (c : Client) (j1 j2 : Job) (q1 q2 : Queryable)
    (h1 : (Client.execEnqueue DB.backend c j1 q1
      (DB.run ops0 { st := DB.newClient d, trace := tr })).1 = none)
    (hfwd : DB.clockForward ops1 (Client.execEnqueue DB.backend c j1 q1
      (DB.run ops0 { st := DB.newClient d, trace := tr })).2.2 = true)
    (h2 : (Client.execEnqueue DB.backend c j2 q2
      (DB.run ops1 (Client.execEnqueue DB.backend c j1 q1
        (DB.run ops0 { st := DB.newClient d, trace := tr })).2.2)).1 = none) :
    ULID.lt
      (Client.execEnqueue DB.backend c j1 q1
        (DB.run ops0 { st := DB.newClient d, trace := tr })).2.1.ID
      (Client.execEnqueue DB.backend c j2 q2
        (DB.run ops1 (Client.execEnqueue DB.backend c j1 q1
          (DB.run ops0 { st := DB.newClient d, trace := tr })).2.2)).2.1.ID ∧
    (Client.execEnqueue DB.backend c j1 q1
        (DB.run ops0 { st := DB.newClient d, trace := tr })).2.1.ID.toNat <
      (Client.execEnqueue DB.backend c j2 q2
        (DB.run ops1 (Client.execEnqueue DB.backend c j1 q1
          (DB.run ops0 { st := DB.newClient d, trace := tr })).2.2)).2.1.ID.toNat ∧
    ((Client.execEnqueue DB.backend c j1 q1
        (DB.run ops0 { st := DB.newClient d, trace := tr })).2.1.ID.ms =
      (Client.execEnqueue DB.backend c j2 q2
        (DB.run ops1 (Client.execEnqueue DB.backend c j1 q1
          (DB.run ops0 { st := DB.newClient d, trace := tr })).2.2)).2.1.ID.ms →
      (Client.execEnqueue DB.backend c j1 q1
        (DB.run ops0 { st := DB.newClient d, trace := tr })).2.1.ID.entropy <
      (Client.execEnqueue DB.backend c j2 q2
        (DB.run ops1 (Client.execEnqueue DB.backend c j1 q1
          (DB.run ops0 { st := DB.newClient d, trace := tr })).2.2)).2.1.ID.entropy) := by
  obtain ⟨a1, a4⟩ := DB.execEnqueue_ok c j1 q1 _ h1
  obtain ⟨b1, b2⟩ := DB.run_gen ops1 _ a1 hfwd
  obtain ⟨e1, -, e3⟩ := DB.execEnqueue_gen c j2 q2 _ b1
  obtain ⟨e4, e5⟩ := e3 h2
  have hnat : (Client.execEnqueue DB.backend c j1 q1
        (DB.run ops0 { st := DB.newClient d, trace := tr })).2.1.ID.toNat <
      (Client.execEnqueue DB.backend c j2 q2
        (DB.run ops1 (Client.execEnqueue DB.backend c j1 q1
          (DB.run ops0 { st := DB.newClient d, trace := tr })).2.2)).2.1.ID.toNat := by
    rw [a4]
    exact lt_of_le_of_lt b2 e5
  have hlt := (ULID.lt_iff_toNat _ _ (by rw [a4]; exact a1.2) (by rw [e4]; exact e1.2)).mpr hnat
  refine ⟨hlt, hnat, fun hms => ?_⟩
  rcases hlt with h | ⟨-, h⟩
  · omega
  · exact h

/-- C17, amended, at concrete inputs.  On the empty table, two jobs enqueued
within one millisecond, with a `Begin` and half a microsecond between them, get
the same timestamp and the later one the greater entropy.  And after the clock
was set back before the first call, a job enqueued in a transaction a second
after the first call gets a later timestamp. -/
theorem Client.Enqueue_ids_increase_witness :
    (Client.execEnqueue DB.backend {} { Type_ := "MyJob" } .pool
      (DB.run [] { st := DB.newClient DB.init, trace := [] })).1 = none ∧
    DB.clockForward [.poolBegin, .setClock 1700000000000000500]
      (Client.execEnqueue DB.backend {} { Type_ := "MyJob" } .pool
        (DB.run [] { st := DB.newClient DB.init, trace := [] })).2.2 = true ∧
    (Client.execEnqueue DB.backend {} { Type_ := "MyJob" } .pool
      (DB.run [.poolBegin, .setClock 1700000000000000500]
        (Client.execEnqueue DB.backend {} { Type_ := "MyJob" } .pool
          (DB.run [] { st := DB.newClient DB.init, trace := [] })).2.2)).1 = none ∧
    (Client.execEnqueue DB.backend {} { Type_ := "MyJob" } .pool
      (DB.run [] { st := DB.newClient DB.init, trace := [] })).2.1.ID.ms =
    (Client.execEnqueue DB.backend {} { Type_ := "MyJob" } .pool
      (DB.run [.poolBegin, .setClock 1700000000000000500]
        (Client.execEnqueue DB.backend {} { Type_ := "MyJob" } .pool
          (DB.run [] { st := DB.newClient DB.init, trace := [] })).2.2)).2.1.ID.ms ∧
    (Client.execEnqueue DB.backend {} { Type_ := "MyJob" } .pool
      (DB.run [] { st := DB.newClient DB.init, trace := [] })).2.1.ID.entropy <
    (Client.execEnqueue DB.backend {} { Type_ := "MyJob" } .pool
      (DB.run [.poolBegin, .setClock 1700000000000000500]
        (Client.execEnqueue DB.backend {} { Type_ := "MyJob" } .pool
          (DB.run [] { st := DB.newClient DB.init, trace := [] })).2.2)).2.1.ID.entropy ∧
    (Client.execEnqueue DB.backend {} { Type_ := "MyJob" } .pool
      (DB.run [.setClock 1600000000000000000, .setClock 1650000000000000000]
        { st := DB.newClient DB.init, trace := [] })).1 = none ∧
    DB.clockForward [.setClock 1650000001000000000, .poolBegin]
      (Client.execEnqueue DB.backend {} { Type_ := "MyJob" } .pool
        (DB.run [.setClock 1600000000000000000, .setClock 1650000000000000000]
          { st := DB.newClient DB.init, trace := [] })).2.2 = true ∧
    (Client.execEnqueue DB.backend {} { Type_ := "MyJob" } (.tx 0)
      (DB.run [.setClock 1650000001000000000, .poolBegin]
        (Client.execEnqueue DB.backend {} { Type_ := "MyJob" } .pool
          (DB.run [.setClock 1600000000000000000, .setClock 1650000000000000000]
            { st := DB.newClient DB.init, trace := [] })).2.2)).1 = none ∧
    ULID.lt
      (Client.execEnqueue DB.backend {} { Type_ := "MyJob" } .pool
        (DB.run [.setClock 1600000000000000000, .setClock 1650000000000000000]
          { st := DB.newClient DB.init, trace := [] })).2.1.ID
      (Client.execEnqueue DB.backend {} { Type_ := "MyJob" } (.tx 0)
        (DB.run [.setClock 1650000001000000000, .poolBegin]
          (Client.execEnqueue DB.backend {} { Type_ := "MyJob" } .pool
            (DB.run [.setClock 1600000000000000000, .setClock 1650000000000000000]
              { st := DB.newClient DB.init, trace := [] })).2.2)).2.1.ID :=
  ⟨rfl, by decide, rfl, rfl,
    (Client.Enqueue_ids_increase DB.init [] [] [.poolBegin, .setClock 1700000000000000500] {}
      { Type_ := "MyJob" } { Type_ := "MyJob" } .pool .pool rfl (by decide) rfl).2.2 rfl,
    rfl, by decide, rfl,
    (Client.Enqueue_ids_increase DB.init []
      [.setClock 1600000000000000000, .setClock 1650000000000000000]
      [.setClock 1650000001000000000, .poolBegin] {}
      { Type_ := "MyJob" } { Type_ := "MyJob" } .pool (.tx 0) rfl (by decide) rfl).1⟩

end IdOrder

/-! ## Failures of a job on the table -/

section Failures

/-- Taking a lock changes nothing of what the table holds. -/
theorem DB.lockRow_persisted (rows : List Row) (key : String) (t : TxId) :
    DB.persisted (DB.lockRow rows key t) = DB.persisted rows := by
  unfold DB.persisted DB.lockRow
  rw [List.map_map]
  apply List.map_congr_left
  intro r _
  simp only [Function.comp]
  split <;> rfl

/-- A statement in a transaction changes nothing of what the table holds, as
long as the transaction is not committed. -/
theorem DB.txExec_persisted (t : TxId) (s : Stmt) (d : DB) :
    DB.persisted (DB.txExec t s d).2.rows = DB.persisted d.rows := by
  unfold DB.txExec
  split
  · rfl
  · cases s <;> simp only [] <;> split <;>
      first
        | rfl
        | (rw [DB.addWrite_rows]; try exact DB.lockRow_persisted _ _ _)

/-- The body of `Job.Error` persists nothing on the table and calls no
commit. -/
theorem DB.errorBody_persisted (j : Job) (msg : String) (w : World DB) :
    DB.persisted (Job.errorBody DB.backend j msg w).2.2.st.rows = DB.persisted w.st.rows ∧
    ∃ pre, (Job.errorBody DB.backend j msg w).2.2.trace = w.trace ++ pre ∧
      ∀ t, Event.txCommit t ∉ pre := by
  unfold Job.errorBody
  rcases hb : j.backoff with _ | b
  · exact ⟨rfl, [], by simp, by simp⟩
  · simp only []
    split
    · unfold Job.Delete
      rcases hd : j.deleted
      · rcases htx : j.tx with _ | tx
        · exact ⟨rfl, [.logInfo "Got negative backoff for a job, discarding it", .jobDelete],
            by simp, by simp⟩
        · simp only [Bool.false_eq_true, if_false]
          rcases hc : (DB.backend.txExec tx (.deleteJob j.ID) w.st).1 with _ | err
          · simp only [World.call_fst, World.emit_st, hc]
            exact ⟨DB.txExec_persisted _ _ _,
              [.logInfo "Got negative backoff for a job, discarding it", .jobDelete,
                .txExec tx (.deleteJob j.ID)], by simp, by simp⟩
          · simp only [World.call_fst, World.emit_st, hc]
            exact ⟨DB.txExec_persisted _ _ _,
              [.logInfo "Got negative backoff for a job, discarding it", .jobDelete,
                .txExec tx (.deleteJob j.ID)], by simp, by simp⟩
      · exact ⟨rfl, [.logInfo "Got negative backoff for a job, discarding it", .jobDelete],
          by simp, by simp⟩
    · rcases htx : j.tx with _ | tx
      · exact ⟨rfl, [], by simp, by simp⟩
      · exact ⟨DB.txExec_persisted _ _ _,
          [.txExec tx (.updateJob j.nextErrorCount
            ((Time.ofUnixNano (DB.backend.timeNow w.st).1).Add (b j.nextErrorCount)) msg
            (Time.ofUnixNano (DB.backend.timeNow w.st).1) j.ID)], by simp, by simp⟩

/-- On a handle without pool, as every lock operation returns it, `Job.Error`
persists nothing on the table: whatever the backoff gives, the table holds
after `Job.Error` what it held before, no commit was called, and the handle
still has its transaction. -/
theorem DB.Error_without_pool (j : Job) (msg : String) (w : World DB) (hp : j.pool = none) :
    DB.persisted (Job.Error DB.backend j msg w).2.2.st.rows = DB.persisted w.st.rows ∧
    (Job.Error DB.backend j msg w).2.1.tx = j.tx ∧
    ∃ new, (Job.Error DB.backend j msg w).2.2.trace = w.trace ++ new ∧
      ∀ t, Event.txCommit t ∉ new := by
  have h2 : (Job.Error DB.backend j msg w).2 = _ := Job.Error_snd DB.backend j msg w
  rw [Job.Done_without_pool DB.backend _ _
    (by rw [(Job.errorBody_trace DB.backend j msg w).2.1]; exact hp)] at h2
  rw [h2]
  simp only [World.emit_st, World.emit_trace]
  obtain ⟨p1, pre, p2, p3⟩ := DB.errorBody_persisted j msg w
  refine ⟨p1, (Job.errorBody_trace DB.backend j msg w).1, pre ++ [.jobDone], ?_, ?_⟩
  · rw [p2, List.append_assoc]
  · intro t ht
    rcases List.mem_append.mp ht with h | h
    · exact p3 t h
    · simp at h

set_option maxRecDepth 20000 in
/-- C13, evaluated on the table: the job of `Example.queuedPast` (error count 0,
unlocked) is locked by id by a client whose backoff is one second per attempt,
and `Job.Error` runs on the handle.  `Job.Error` returns nil after the `UPDATE`
that sets the error count to 1, but calls no commit: the handle still has
transaction 0, which is still open, and the table still holds the row with the
error count 0 and its `run_at`, now locked by that transaction.  So the job
cannot fail a second time: the next `LockJobByID` returns no job and
`ErrNoRows`, and `LockJob` finds nothing. -/
theorem DB.failure_is_not_persisted :
    Example.queuedPast.st.rows = [Example.pastRow] ∧
    ∃ j w, Client.LockJobByID DB.backend Example.linearClient ⟨1700000000000, 42⟩
        Example.queuedPast = (some j, none, w) ∧
      j.ErrorCount = 0 ∧ 0 ≤ Example.linearBackoff (j.ErrorCount + 1) ∧
      (Job.Error DB.backend j "boom" w).1 = .returned none ∧
      (Job.Error DB.backend j "boom" w).2.2.trace = w.trace ++
        [.txExec 0 (.updateJob 1 ⟨63835596801000000000⟩ "boom" ⟨63835596800000000000⟩
          ⟨1700000000000, 42⟩), .jobDone] ∧
      (Job.Error DB.backend j "boom" w).2.1.Tx = some 0 ∧
      DB.isOpenTx (Job.Error DB.backend j "boom" w).2.2.st 0 = true ∧
      (Job.Error DB.backend j "boom" w).2.2.st.rows =
        [{ Example.pastRow with lockedBy := some 0 }] ∧
      (Job.Error DB.backend j "boom" w).2.2.st.rows.map (fun r => r.error_count) = [0] ∧
      (Client.LockJobByID DB.backend Example.linearClient ⟨1700000000000, 42⟩
        (Job.Error DB.backend j "boom" w).2.2).1.isNone = true ∧
      (Client.LockJobByID DB.backend Example.linearClient ⟨1700000000000, 42⟩
        (Job.Error DB.backend j "boom" w).2.2).2.1 = some (.errorfLockNil .ErrNoRows) ∧
      (Client.LockJob DB.backend Example.linearClient ""
        (Job.Error DB.backend j "boom" w).2.2).1.isNone = true :=
  ⟨rfl, _, _, rfl, rfl, by decide, rfl, rfl, rfl, rfl, rfl, rfl, rfl, rfl, rfl⟩

end Failures

end Gue
